import Mathlib

/-!
Verification of the USB (LS/FS) signalling decoder
(src/decoders/usb_signalling/pd.py).

Shallow embedding conventions:
* Python floats are modelled as exact rationals (the spec's timing contract
  is stated over exact fractional arithmetic).
* Python `None`-able attributes are modelled as `Option` fields; operations
  that would raise a runtime exception in Python (`TypeError` on arithmetic
  with `None`, `KeyError` on a missing dict key, `AttributeError` on a
  never-assigned attribute, `ZeroDivisionError`, `StopIteration` escaping
  from the first `next(data)`) return an error in the `Except RunErr` monad.
* The `SamplerateError` exception raised by `decode` is a distinct exception
  class and is modelled as a separate outer `Except` layer.
* Only the OUTPUT_PYTHON event stream is modelled (`Put` records); the
  annotation stream mirrors it one-for-one and carries presentation labels
  only, which the spec leaves out of scope.
* Python `int()` applied to a float truncates toward zero: `pyint`.
-/

deriving instance DecidableEq for Except

namespace UsbSig

/-- The four signalling-mode tables of the `symbols` dict. -/
inductive Mode
  | lowSpeed     -- 'low-speed'
  | fullSpeed    -- 'full-speed'
  | automatic    -- 'automatic'
  | lowSpeedRP   -- 'low-speed-rp'
deriving DecidableEq, Repr

/-- Symbol / state names produced by the `symbols` tables. -/
inductive Sym
  | J | K | SE0 | SE1 | FSJ | LSJ
deriving DecidableEq, Repr

/-- The five decoder states. -/
inductive St
  | INIT | IDLE | WAIT_IDLE | GET_BIT | GET_EOP
deriving DecidableEq, Repr

/-- A (D+, D-) level pair; `false` is 0 and `true` is 1. -/
abbrev Pins := Bool × Bool

/-- Payload kinds of the OUTPUT_PYTHON events. -/
inductive Ev
  | SOP | SYM (s : Sym) | BIT (b : Char) | STUFF_BIT | EOP | ERR
  | KEEP_ALIVE | RESET
deriving DecidableEq, Repr

/-- One emitted OUTPUT_PYTHON event: a sample range and a payload.
The range endpoints are the values of the decoder fields passed to
`self.put`, which can be `None` before they are first assigned. -/
structure Put where
  s : Option ℤ
  e : Option ℤ
  ev : Ev
deriving DecidableEq, Repr

/-- Python runtime exceptions that the decoder body could raise. -/
inductive RunErr
  | keyError | typeError | attrError | zeroDivisionError | stopIteration
deriving DecidableEq, Repr

abbrev M := Except RunErr

/-- The SamplerateError exception class raised by `decode`. -/
inductive SamplerateError
  | mk
deriving DecidableEq, Repr

/-- The `symbols` dict: one association table per signalling mode,
transcribed row by row from the source. -/
def symbolsList (m : Mode) : List (Pins × Sym) :=
  match m with
  | .lowSpeed =>
      [((false, false), .SE0), ((true, false), .K),
       ((false, true), .J), ((true, true), .SE1)]
  | .fullSpeed =>
      [((false, false), .SE0), ((true, false), .J),
       ((false, true), .K), ((true, true), .SE1)]
  | .automatic =>
      [((false, false), .SE0), ((true, false), .FSJ),
       ((false, true), .LSJ), ((true, true), .SE1)]
  | .lowSpeedRP =>
      [((false, false), .SE0), ((true, false), .J),
       ((false, true), .K), ((true, true), .SE1)]

/-- `symbols[mode][pins]`: dictionary lookup (a missing key would be a
`KeyError`, surfaced by the callers when the result is `none`). -/
def symLookup (m : Mode) (p : Pins) : Option Sym :=
  (symbolsList m).lookup p

/-- The `bitrates` dict; `'automatic'` maps to `None`. -/
def bitrates (m : Mode) : Option ℚ :=
  match m with
  | .lowSpeed => some 1500000
  | .lowSpeedRP => some 1500000
  | .fullSpeed => some 12000000
  | .automatic => none

/-- Python `int()` on a float: truncation toward zero. -/
def pyint (q : ℚ) : ℤ := if 0 ≤ q then ⌊q⌋ else ⌈q⌉

/-- Python truthiness of the `samplerate` attribute:
`None` and `0` are falsy. -/
def qTruthy : Option ℚ → Bool
  | none => false
  | some r => if r = 0 then false else true

/-- The decoder instance state: one field per mutable attribute of
`Decoder`, plus the immutable `options['signalling']` value. -/
structure DecState where
  opt_signalling : Mode
  samplerate : Option ℚ
  oldsym : Sym
  ss_block : Option ℤ
  samplenum : ℤ
  bitrate : Option ℚ
  bitwidth : Option ℚ
  samplepos : Option ℚ
  samplenum_target : Option ℤ
  samplenum_edge : Option ℤ
  samplenum_lastedge : Option ℤ
  oldpins : Option Pins
  edgepins : Option Pins
  consecutive_ones : ℕ
  bits : Option String
  signalling : Option Mode
  state : St
  lookahead_buffer : Option (List (ℤ × Pins))
deriving DecidableEq, Repr

/-- `Decoder.__init__` field values (the `signalling` attribute and the
lookahead buffer do not exist yet: `none`). -/
def initState (opt : Mode) : DecState where
  opt_signalling := opt
  samplerate := none
  oldsym := .J
  ss_block := none
  samplenum := 0
  bitrate := none
  bitwidth := none
  samplepos := none
  samplenum_target := none
  samplenum_edge := none
  samplenum_lastedge := some 0
  oldpins := none
  edgepins := none
  consecutive_ones := 0
  bits := none
  signalling := none
  state := .INIT
  lookahead_buffer := none

/-- `Decoder.update_bitrate`. -/
def update_bitrate (st : DecState) : M DecState :=
  match st.signalling with
  | none => .error .attrError
  | some sig =>
    let st := { st with bitrate := bitrates sig }
    match st.samplerate, st.bitrate with
    | some r, some brv => .ok { st with bitwidth := some (r / brv) }
    | _, _ => .error .typeError

/-- `Decoder.metadata` with the samplerate key. -/
def metadata (st : DecState) (value : ℚ) : M DecState :=
  let st := { st with samplerate := some value,
                      signalling := some st.opt_signalling }
  if st.opt_signalling ≠ .automatic then update_bitrate st else .ok st

/-- `Decoder.putpx`: a point event at `samplenum_edge`. -/
def putpx (st : DecState) (ev : Ev) : Put :=
  ⟨st.samplenum_edge, st.samplenum_edge, ev⟩

/-- `Decoder.putpm`: a range event from `ss_block` to `samplenum_edge`. -/
def putpm (st : DecState) (ev : Ev) : Put :=
  ⟨st.ss_block, st.samplenum_edge, ev⟩

/-- `Decoder.putpb`: a range event from `samplenum_lastedge` to
`samplenum_edge`. -/
def putpb (st : DecState) (ev : Ev) : Put :=
  ⟨st.samplenum_lastedge, st.samplenum_edge, ev⟩

/-- `Decoder.set_new_target_samplenum`. -/
def set_new_target_samplenum (st : DecState) : M DecState :=
  match st.samplepos, st.bitwidth with
  | some sp, some bw =>
    let sp := sp + bw
    .ok { st with samplepos := some sp,
                  samplenum_target := some (pyint sp),
                  samplenum_lastedge := st.samplenum_edge,
                  samplenum_edge := some (pyint (sp - bw / 2)) }
  | _, _ => .error .typeError

/-- The loop of `Decoder.samplepos_quality` over the lookahead buffer. -/
def quality_loop (sig : Mode) (bw : ℚ) : List (ℤ × Pins) → ℚ → M ℚ
  | [], sp => .ok sp
  | (n, pins) :: rest, sp =>
    if n < pyint sp then quality_loop sig bw rest sp
    else
      match symLookup sig pins with
      | none => .error .keyError
      | some sym =>
        if sym = .J ∨ sym = .K then quality_loop sig bw rest (sp + bw)
        else .ok sp

/-- `Decoder.samplepos_quality`. -/
def samplepos_quality (st : DecState) (samplepos : ℚ) : M ℚ :=
  match st.signalling, st.bitwidth, st.lookahead_buffer with
  | some sig, some bw, some buf => quality_loop sig bw buf (samplepos + bw * 2)
  | none, _, _ => .error .attrError
  | _, none, _ => .error .typeError
  | _, _, none => .error .attrError

/-- The half-sample shift of `Decoder.wait_for_sop`: if the previous
sample's pins exist and classify as something other than J, move the
nominal start position back by half a sample. -/
def sop_shift (st : DecState) (sp : ℚ) : M ℚ :=
  match st.edgepins with
  | none => .ok sp
  | some ep =>
    match st.signalling with
    | none => .error .attrError
    | some sig =>
      match symLookup sig ep with
      | none => .error .keyError
      | some s => if s ≠ .J then .ok (sp - 1/2) else .ok sp

/-- `Decoder.wait_for_sop`. -/
def wait_for_sop (st : DecState) (sym : Sym) : M (DecState × List Put) :=
  if sym ≠ .K ∨ st.oldsym ≠ .J then .ok (st, [])
  else
    match st.bitwidth with
    | none => .error .typeError
    | some bw =>
      match sop_shift st ((st.samplenum : ℚ) - 1/2 - bw / 2) with
      | .error er => .error er
      | .ok sp0 =>
        let st := { st with samplepos := some sp0 }
        match samplepos_quality st sp0, samplepos_quality st (sp0 + 1) with
        | .ok q0, .ok q1 =>
          let st := if q0 < q1 then { st with samplepos := some (sp0 + 1) }
                    else st
          let st := { st with consecutive_ones := 0, bits := some "" }
          match update_bitrate st with
          | .error er => .error er
          | .ok st =>
            match set_new_target_samplenum st with
            | .error er => .error er
            | .ok st => .ok ({ st with state := .GET_BIT }, [putpx st .SOP])
        | .error er, _ => .error er
        | _, .error er => .error er

/-- `Decoder.handle_bit` (pure: it touches no `None`-able field). -/
def handle_bit (st : DecState) (b : Char) : DecState × List Put :=
  if st.consecutive_ones = 6 then
    if b = '0' then
      ({ st with consecutive_ones := 0 }, [putpb st .STUFF_BIT])
    else
      ({ st with state := .IDLE }, [putpb st .ERR])
  else
    let puts := [putpb st (.BIT b)]
    if b = '1' then
      ({ st with consecutive_ones := st.consecutive_ones + 1 }, puts)
    else
      ({ st with consecutive_ones := 0 }, puts)

/-- `Decoder.get_eop`. -/
def get_eop (st : DecState) (sym : Sym) : M (DecState × List Put) :=
  match set_new_target_samplenum st with
  | .error er => .error er
  | .ok st =>
    let puts := [putpb st (.SYM sym)]
    let st := { st with oldsym := sym }
    if sym = .SE0 then .ok (st, puts)
    else if sym = .J then
      .ok ({ st with state := .WAIT_IDLE }, puts ++ [putpm st .EOP])
    else
      .ok ({ st with state := .IDLE }, puts ++ [putpm st .ERR])

/-- `Decoder.get_bit`. -/
def get_bit (st : DecState) (sym : Sym) : M (DecState × List Put) :=
  match set_new_target_samplenum st with
  | .error er => .error er
  | .ok st =>
    let b : Char := if st.oldsym ≠ sym then '0' else '1'
    let st := { st with oldsym := sym }
    let r : DecState × List Put :=
      if sym = .SE0 then
        ({ st with state := .GET_EOP, ss_block := st.samplenum_lastedge }, [])
      else handle_bit st b
    let st := r.1
    let puts := r.2 ++ [putpb st (.SYM sym)]
    match st.bits with
    | none => .error .typeError
    | some bits =>
      let bits := if bits.length ≤ 16 then bits.push b else bits
      let st := { st with bits := some bits }
      if bits.length = 16 ∧ bits = "0000000100111100" then
        let puts := puts ++ [putpx st .EOP]
        let st := { st with state := .IDLE, signalling := some .lowSpeedRP }
        match update_bitrate st with
        | .error er => .error er
        | .ok st => .ok ({ st with oldsym := .J }, puts)
      else .ok (st, puts)

/-- `Decoder.handle_idle`. -/
def handle_idle (st : DecState) (sym : Sym) : M (DecState × List Put) :=
  let st := { st with samplenum_edge := some st.samplenum }
  match st.samplerate, st.samplenum_lastedge with
  | some r, some le =>
    if r = 0 then .error .zeroDivisionError
    else
      let se0_length : ℚ := ((st.samplenum - le : ℤ) : ℚ) / r
      let gapStep : M (DecState × List Put) :=
        if se0_length > 25 / 10000000 then
          .ok ({ st with signalling := some st.opt_signalling },
               [putpb st .RESET])
        else if se0_length > 12 / 10000000 then
          match st.signalling with
          | none => .error .attrError
          | some sig =>
            if sig = .lowSpeed then .ok (st, [putpb st .KEEP_ALIVE])
            else .ok (st, [])
        else .ok (st, [])
      match gapStep with
      | .error er => .error er
      | .ok (st, puts) =>
        let speedStep : M DecState :=
          if sym = .FSJ then
            update_bitrate { st with signalling := some .fullSpeed }
          else if sym = .LSJ then
            update_bitrate { st with signalling := some .lowSpeed }
          else .ok st
        match speedStep with
        | .error er => .error er
        | .ok st => .ok ({ st with oldsym := .J, state := .IDLE }, puts)
  | _, _ => .error .typeError

/-- One iteration of the `decode` while-loop body (the state machine),
applied to the sample just popped from the lookahead buffer. -/
def machine_step (st : DecState) (samplenum : ℤ) (pins : Pins) :
    M (DecState × List Put) :=
  let st := { st with samplenum := samplenum }
  match st.state with
  | .IDLE =>
    if st.oldpins = some pins then .ok (st, [])
    else
      let st := { st with oldpins := some pins }
      match st.signalling with
      | none => .error .attrError
      | some sig =>
        match symLookup sig pins with
        | none => .error .keyError
        | some sym =>
          if sym = .SE0 then
            .ok ({ st with samplenum_lastedge := some st.samplenum,
                           state := .WAIT_IDLE,
                           edgepins := some pins }, [])
          else
            match wait_for_sop st sym with
            | .error er => .error er
            | .ok (st, puts) => .ok ({ st with edgepins := some pins }, puts)
  | .GET_BIT | .GET_EOP =>
    let st := if st.samplenum_edge = some samplenum then
                { st with edgepins := some pins }
              else st
    match st.samplenum_target with
    | none => .error .typeError
    | some tgt =>
      if samplenum < tgt then .ok (st, [])
      else
        match st.signalling with
        | none => .error .attrError
        | some sig =>
          match symLookup sig pins with
          | none => .error .keyError
          | some sym =>
            match (if st.state = .GET_BIT then get_bit st sym
                   else get_eop st sym) with
            | .error er => .error er
            | .ok (st, puts) => .ok ({ st with oldpins := some pins }, puts)
  | .WAIT_IDLE =>
    if pins = (false, false) then .ok (st, [])
    else
      match st.samplenum_lastedge with
      | none => .error .typeError
      | some le =>
        if st.samplenum - le > 1 then
          match symLookup st.opt_signalling pins with
          | none => .error .keyError
          | some sym =>
            match handle_idle st sym with
            | .error er => .error er
            | .ok (st, puts) =>
              .ok ({ st with oldpins := some pins,
                             edgepins := some pins }, puts)
        else
          match st.signalling with
          | none => .error .attrError
          | some sig =>
            match symLookup sig pins with
            | none => .error .keyError
            | some sym =>
              match wait_for_sop st sym with
              | .error er => .error er
              | .ok (st, puts) =>
                .ok ({ st with oldpins := some pins,
                               edgepins := some pins }, puts)
  | .INIT =>
    match symLookup st.opt_signalling pins with
    | none => .error .keyError
    | some sym =>
      match handle_idle st sym with
      | .error er => .error er
      | .ok (st, puts) => .ok ({ st with oldpins := some pins }, puts)

/-- The `decode` while-loop: each iteration appends the next input sample
to the lookahead buffer when one remains (`StopIteration` is swallowed),
pops the oldest buffered sample, and runs the state machine on it. -/
def decode_loop : List (ℤ × Pins) → List (ℤ × Pins) → DecState →
    List Put → M (List Put × DecState)
  | _, [], st, acc => .ok (acc, st)
  | [], b0 :: brest, st, acc =>
    match machine_step { st with lookahead_buffer := some brest }
            b0.1 b0.2 with
    | .error er => .error er
    | .ok (st, puts) => decode_loop [] brest st (acc ++ puts)
  | d :: drest, b0 :: brest, st, acc =>
    match machine_step { st with lookahead_buffer := some (brest ++ [d]) }
            b0.1 b0.2 with
    | .error er => .error er
    | .ok (st, puts) => decode_loop drest (brest ++ [d]) st (acc ++ puts)
termination_by data buf _ _ => data.length + buf.length
decreasing_by
  all_goals simp [List.length_append]

/-- `Decoder.decode`: raises `SamplerateError` when the samplerate
attribute is falsy, before touching the input; otherwise pre-fills the
lookahead buffer with 192 copies of the first sample (`StopIteration`
escapes when the input is empty) and runs the loop. -/
def decode (st : DecState) (data : List (ℤ × Pins)) :
    Except SamplerateError (M (List Put × DecState)) :=
  if qTruthy st.samplerate then
    .ok (match data with
         | [] => .error .stopIteration
         | d :: rest =>
           decode_loop rest (List.replicate 192 d)
             { st with lookahead_buffer := some (List.replicate 192 d) } [])
  else .error SamplerateError.mk

/-! ## Helper lemmas -/

/-- Characterization of `set_new_target_samplenum` when `samplepos` and
`bitwidth` are set. -/
theorem snts_ok (st : DecState) (sp bw : ℚ)
    (h1 : st.samplepos = some sp) (h2 : st.bitwidth = some bw) :
    set_new_target_samplenum st =
      .ok { st with samplepos := some (sp + bw),
                    samplenum_target := some (pyint (sp + bw)),
                    samplenum_lastedge := st.samplenum_edge,
                    samplenum_edge := some (pyint (sp + bw - bw / 2)) } := by
  simp [set_new_target_samplenum, h1, h2]

/-- Iterating `set_new_target_samplenum`, one call per decoded bit. -/
def sntsIter : ℕ → DecState → M DecState
  | 0, st => .ok st
  | n + 1, st =>
    match set_new_target_samplenum st with
    | .error er => .error er
    | .ok st => sntsIter n st

/-! ## C9 -/

/-- C9: for every signalling-mode table and every (D+, D-) pair, symbol
classification is total and deterministic: the table lookup yields exactly
one symbol, so no pin combination is unmapped and no lookup can fail. -/
theorem c9_symbol_tables_total :
    ∀ (m : Mode) (p : Pins), ∃! s : Sym, symLookup m p = some s := by
  intro m p
  obtain ⟨a, b⟩ := p
  cases m <;> cases a <;> cases b <;>
    exact ⟨_, rfl, fun y hy => (Option.some.inj hy).symm⟩

/-! ## C2 -/

/-- C2, counterexample: the code computes the bit-period-end sample index
with Python `int()` (truncation), not `round()`. At `sample_position`
2.7 and `bit_width` 8 the advanced position is 10.7; the code stores
target 10, while rounding 10.7 gives 11. -/
theorem c2_counterexample :
    (set_new_target_samplenum
        { initState .fullSpeed with samplepos := some (27 / 10),
                                    bitwidth := some 8 }).map
        (fun st => st.samplenum_target) = .ok (some 10) ∧
    round ((27 : ℚ) / 10 + 8) = (11 : ℤ) ∧ (10 : ℤ) ≠ 11 := by
  refine ⟨by decide!, by decide!, by decide⟩

/-- C2, amended: for each bit the timing model advances the fractional
running position by exactly one bit width, and computes the bit-period-end
index as the truncation (Python `int()`, not rounding) of the running
position and the mid-bit anchor as the truncation of the running position
minus half a bit width; over `n` consecutive bits the accumulated position
is exactly the start position plus `n` times the bit width, with no
cumulative drift. -/
theorem c2_timing_model (st : DecState) (sp bw : ℚ)
    (h1 : st.samplepos = some sp) (h2 : st.bitwidth = some bw) :
    ∀ n : ℕ, ∃ st' q, sntsIter (n + 1) st = .ok st' ∧
      st'.samplepos = some q ∧ q = sp + ((n : ℚ) + 1) * bw ∧
      st'.samplenum_target = some (pyint q) ∧
      st'.samplenum_edge = some (pyint (q - bw / 2)) ∧
      st'.bitwidth = some bw := by
  intro n
  induction n generalizing st sp with
  | zero =>
    refine ⟨{ st with samplepos := some (sp + bw),
                      samplenum_target := some (pyint (sp + bw)),
                      samplenum_lastedge := st.samplenum_edge,
                      samplenum_edge := some (pyint (sp + bw - bw / 2)) },
            sp + bw, ?_, rfl, by norm_num, rfl, rfl, ?_⟩
    · simp [sntsIter, snts_ok st sp bw h1 h2]
    · simpa using h2
  | succ n ih =>
    obtain ⟨st', q, hit, hp, hq, ht, he, hb⟩ :=
      ih { st with samplepos := some (sp + bw),
                   samplenum_target := some (pyint (sp + bw)),
                   samplenum_lastedge := st.samplenum_edge,
                   samplenum_edge := some (pyint (sp + bw - bw / 2)) }
        (sp + bw) rfl (by simpa using h2)
    refine ⟨st', q, ?_, hp, ?_, ht, he, hb⟩
    · rw [show n + 1 + 1 = (n + 1) + 1 from rfl]
      simp only [sntsIter, snts_ok st sp bw h1 h2]
      exact hit
    · rw [hq]; push_cast; ring

/-- C2, witness: the amended timing theorem applied to a concrete state
(position 0, bit width 1) for two consecutive bits. -/
theorem c2_witness :
    ∃ st' q, sntsIter (1 + 1)
        { initState .fullSpeed with samplepos := some 0,
                                    bitwidth := some 1 } = .ok st' ∧
      st'.samplepos = some q ∧ q = 0 + (((1 : ℕ) : ℚ) + 1) * 1 ∧
      st'.samplenum_target = some (pyint q) ∧
      st'.samplenum_edge = some (pyint (q - 1 / 2)) ∧
      st'.bitwidth = some 1 :=
  c2_timing_model _ 0 1 rfl rfl 1

/-! ## Shape lemmas for the decoder helpers -/

/-- The quality heuristic ignores the `samplepos` field of the state. -/
theorem quality_set_samplepos (st : DecState) (x : Option ℚ) (sp : ℚ) :
    samplepos_quality { st with samplepos := x } sp = samplepos_quality st sp := rfl

theorem update_bitrate_fields (st st' : DecState) (h : update_bitrate st = .ok st') :
    st'.consecutive_ones = st.consecutive_ones ∧ st'.signalling = st.signalling ∧
    st'.state = st.state ∧ st'.bits = st.bits ∧ st'.oldsym = st.oldsym ∧
    st'.samplerate = st.samplerate ∧ st'.opt_signalling = st.opt_signalling ∧
    st'.samplenum = st.samplenum ∧ st'.samplenum_edge = st.samplenum_edge ∧
    st'.samplenum_lastedge = st.samplenum_lastedge ∧ st'.ss_block = st.ss_block := by
  unfold update_bitrate at h
  split at h
  · exact absurd h (by simp)
  · dsimp only [] at h
    split at h
    · simp only [Except.ok.injEq] at h; subst h; simp
    · exact absurd h (by simp)

theorem snts_fields (st st' : DecState) (h : set_new_target_samplenum st = .ok st') :
    st'.consecutive_ones = st.consecutive_ones ∧ st'.signalling = st.signalling ∧
    st'.state = st.state ∧ st'.bits = st.bits ∧ st'.oldsym = st.oldsym ∧
    st'.samplerate = st.samplerate ∧ st'.opt_signalling = st.opt_signalling ∧
    st'.samplenum = st.samplenum ∧ st'.ss_block = st.ss_block := by
  unfold set_new_target_samplenum at h
  split at h
  · simp only [Except.ok.injEq] at h; subst h; simp
  · exact absurd h (by simp)

/-- Shape of any successful `wait_for_sop` call: either the J-to-K test
fails and nothing happens, or an SOP is confirmed. -/
theorem wfs_shape (st : DecState) (sym : Sym) (st' : DecState) (puts : List Put)
    (h : wait_for_sop st sym = .ok (st', puts)) :
    (st' = st ∧ puts = []) ∨
    (sym = .K ∧ st.oldsym = .J ∧ st'.state = .GET_BIT ∧
     st'.consecutive_ones = 0 ∧ st'.signalling = st.signalling ∧
     st'.opt_signalling = st.opt_signalling ∧ st'.bits = some "" ∧
     st'.oldsym = st.oldsym ∧ ∃ e, puts = [⟨e, e, Ev.SOP⟩]) := by
  unfold wait_for_sop at h
  split at h
  · left
    simp only [Except.ok.injEq, Prod.mk.injEq] at h
    exact ⟨h.1.symm, h.2.symm⟩
  · rename_i hc
    push_neg at hc
    right
    refine ⟨hc.1, hc.2, ?_⟩
    split at h
    · exact absurd h (by simp)
    · split at h
      · exact absurd h (by simp)
      · dsimp only [] at h
        split at h
        · rename_i q0 q1 hq0 hq1
          by_cases hlt : q0 < q1
          all_goals simp only [hlt, if_true, if_false] at h
          all_goals
            split at h
            · exact absurd h (by simp)
            · rename_i stU hub
              split at h
              · exact absurd h (by simp)
              · rename_i stS hsnts
                simp only [Except.ok.injEq, Prod.mk.injEq] at h
                obtain ⟨h1, h2⟩ := h
                subst h1
                obtain ⟨u1, u2, u3, u4, u5, u6, u7, -⟩ := update_bitrate_fields _ _ hub
                obtain ⟨s1, s2, s3, s4, s5, s6, s7, -⟩ := snts_fields _ _ hsnts
                refine ⟨by simp, by simp [s1, u1], by simp [s2, u2],
                        by simp [s7, u7], by simp [s4, u4], by simp [s5, u5],
                        stS.samplenum_edge, by rw [← h2]; rfl⟩
        · exact absurd h (by simp)
        · exact absurd h (by simp)


/-! ## C4 -/

/-- C4: bit (de)stuffing. On every non-EOP bit handled in GET BIT: with
the consecutive-ones counter at 6, a '0' yields exactly one STUFF BIT
event (no BIT event) and resets the counter, while any other bit ('1')
yields exactly one ERR event (no BIT event) and forces the state machine
to IDLE; otherwise exactly one BIT event carrying the bit value is
emitted and the counter increments on '1' and resets to 0 on '0'; and
every confirmed SOP resets the counter to 0. -/
theorem c4_bit_stuffing :
    (∀ (st : DecState) (b : Char),
      (st.consecutive_ones = 6 → b = '0' →
        handle_bit st b =
          ({ st with consecutive_ones := 0 }, [putpb st .STUFF_BIT])) ∧
      (st.consecutive_ones = 6 → b ≠ '0' →
        handle_bit st b = ({ st with state := .IDLE }, [putpb st .ERR])) ∧
      (st.consecutive_ones ≠ 6 → b = '1' →
        handle_bit st b = ({ st with consecutive_ones :=
          st.consecutive_ones + 1 }, [putpb st (.BIT b)])) ∧
      (st.consecutive_ones ≠ 6 → b ≠ '1' →
        handle_bit st b =
          ({ st with consecutive_ones := 0 }, [putpb st (.BIT b)]))) ∧
    (∀ (st : DecState) (sym : Sym) (st' : DecState) (puts : List Put),
      st.state ≠ .GET_BIT → wait_for_sop st sym = .ok (st', puts) →
      st'.state = .GET_BIT → st'.consecutive_ones = 0) := by
  constructor
  · intro st b
    refine ⟨?_, ?_, ?_, ?_⟩ <;> intro h hb <;> simp [handle_bit, h, hb]
  · intro st sym st' puts hst h hgb
    rcases wfs_shape st sym st' puts h with ⟨he, -⟩ | ⟨-, -, -, hco, -⟩
    · exact absurd (he ▸ hgb) hst
    · exact hco

/-- Concrete state for the C4 witness: counter at the stuffing limit. -/
def c4st : DecState := { initState .fullSpeed with consecutive_ones := 6 }

/-- Concrete state for the C4 witness: counter below the limit. -/
def c4st2 : DecState := { initState .fullSpeed with consecutive_ones := 3 }

/-- Concrete pre-SOP state for the C4 witness. -/
def c4sop : DecState :=
  { initState .fullSpeed with samplerate := some 12000000,
                              signalling := some .fullSpeed,
                              bitrate := some 12000000,
                              bitwidth := some 1,
                              samplenum := 3,
                              consecutive_ones := 5,
                              state := .IDLE,
                              lookahead_buffer := some [] }

/-- Concrete post-SOP state for the C4 witness. -/
def c4sop' : DecState :=
  { initState .fullSpeed with samplerate := some 12000000,
                              signalling := some .fullSpeed,
                              bitrate := some 12000000,
                              bitwidth := some 1,
                              samplenum := 3,
                              samplepos := some 4,
                              samplenum_target := some 4,
                              samplenum_edge := some 3,
                              samplenum_lastedge := none,
                              consecutive_ones := 0,
                              bits := some "",
                              state := .GET_BIT,
                              lookahead_buffer := some [] }

/-- C4, witness: the bit-stuffing theorem applied at concrete inputs,
covering all four bit cases and a concrete SOP counter reset. -/
theorem c4_witness :
    handle_bit c4st '0' =
      ({ c4st with consecutive_ones := 0 }, [putpb c4st .STUFF_BIT]) ∧
    handle_bit c4st '1' =
      ({ c4st with state := .IDLE }, [putpb c4st .ERR]) ∧
    handle_bit c4st2 '1' = ({ c4st2 with consecutive_ones :=
      c4st2.consecutive_ones + 1 }, [putpb c4st2 (.BIT '1')]) ∧
    handle_bit c4st2 '0' =
      ({ c4st2 with consecutive_ones := 0 }, [putpb c4st2 (.BIT '0')]) ∧
    c4sop'.consecutive_ones = 0 :=
  ⟨(c4_bit_stuffing.1 c4st '0').1 rfl rfl,
   (c4_bit_stuffing.1 c4st '1').2.1 rfl (by decide),
   (c4_bit_stuffing.1 c4st2 '1').2.2.1 (by decide) rfl,
   (c4_bit_stuffing.1 c4st2 '0').2.2.2 (by decide) (by decide),
   c4_bit_stuffing.2 c4sop .K c4sop' [⟨some 3, some 3, Ev.SOP⟩]
     (by decide) (by decide!) rfl⟩

/-! ## Output lemmas for get_eop and get_bit -/

/-- `get_eop` on an SE0 symbol: advance one bit, emit only the SYM event,
keep waiting (no state change). -/
theorem get_eop_se0 (st : DecState) (sp bw : ℚ)
    (hsp : st.samplepos = some sp) (hbw : st.bitwidth = some bw) :
    get_eop st .SE0 =
      .ok ({ st with samplepos := some (sp + bw),
                     samplenum_target := some (pyint (sp + bw)),
                     samplenum_lastedge := st.samplenum_edge,
                     samplenum_edge := some (pyint (sp + bw - bw / 2)),
                     oldsym := .SE0 },
           [⟨st.samplenum_edge, some (pyint (sp + bw - bw / 2)),
             Ev.SYM .SE0⟩]) := by
  unfold get_eop
  rw [snts_ok st sp bw hsp hbw]
  simp [putpb]

/-- `get_eop` on a J symbol: exactly one EOP event, ranging from the
recorded `ss_block` to the new symbol edge, then WAIT IDLE. -/
theorem get_eop_j (st : DecState) (sp bw : ℚ)
    (hsp : st.samplepos = some sp) (hbw : st.bitwidth = some bw) :
    get_eop st .J =
      .ok ({ st with samplepos := some (sp + bw),
                     samplenum_target := some (pyint (sp + bw)),
                     samplenum_lastedge := st.samplenum_edge,
                     samplenum_edge := some (pyint (sp + bw - bw / 2)),
                     oldsym := .J, state := .WAIT_IDLE },
           [⟨st.samplenum_edge, some (pyint (sp + bw - bw / 2)), Ev.SYM .J⟩,
            ⟨st.ss_block, some (pyint (sp + bw - bw / 2)), Ev.EOP⟩]) := by
  unfold get_eop
  rw [snts_ok st sp bw hsp hbw]
  simp [putpb, putpm]

/-- `get_eop` on any symbol other than SE0 and J: exactly one ERR event
and a direct return to IDLE. -/
theorem get_eop_err (st : DecState) (sym : Sym) (sp bw : ℚ)
    (hsp : st.samplepos = some sp) (hbw : st.bitwidth = some bw)
    (h0 : sym ≠ .SE0) (h1 : sym ≠ .J) :
    get_eop st sym =
      .ok ({ st with samplepos := some (sp + bw),
                     samplenum_target := some (pyint (sp + bw)),
                     samplenum_lastedge := st.samplenum_edge,
                     samplenum_edge := some (pyint (sp + bw - bw / 2)),
                     oldsym := sym, state := .IDLE },
           [⟨st.samplenum_edge, some (pyint (sp + bw - bw / 2)), Ev.SYM sym⟩,
            ⟨st.ss_block, some (pyint (sp + bw - bw / 2)), Ev.ERR⟩]) := by
  unfold get_eop
  rw [snts_ok st sp bw hsp hbw]
  simp [putpb, putpm, h0, h1]

/-- `handle_bit` only touches `consecutive_ones`, `state` and the
emission list. -/
theorem handle_bit_fields (st : DecState) (b : Char) :
    (handle_bit st b).1.samplerate = st.samplerate ∧
    (handle_bit st b).1.bits = st.bits ∧
    (handle_bit st b).1.samplenum_edge = st.samplenum_edge ∧
    (handle_bit st b).1.samplenum_lastedge = st.samplenum_lastedge ∧
    (handle_bit st b).1.oldsym = st.oldsym ∧
    (handle_bit st b).1.signalling = st.signalling ∧
    (handle_bit st b).1.opt_signalling = st.opt_signalling ∧
    (handle_bit st b).1.samplepos = st.samplepos := by
  unfold handle_bit
  split_ifs <;> simp

/-- `get_bit` on an SE0 symbol (when the 16-bit preamble test does not
fire): enter GET EOP and record `ss_block` at the edge where the SE0 bit
began; only the SYM event is emitted. -/
theorem get_bit_se0 (st : DecState) (sp bw : ℚ) (bs : String)
    (hsp : st.samplepos = some sp) (hbw : st.bitwidth = some bw)
    (hbs : st.bits = some bs)
    (hnp : (if bs.length ≤ 16
            then bs.push (if st.oldsym ≠ Sym.SE0 then '0' else '1')
            else bs) ≠ "0000000100111100") :
    get_bit st .SE0 =
      .ok ({ st with samplepos := some (sp + bw),
                     samplenum_target := some (pyint (sp + bw)),
                     samplenum_lastedge := st.samplenum_edge,
                     samplenum_edge := some (pyint (sp + bw - bw / 2)),
                     oldsym := .SE0, state := .GET_EOP,
                     ss_block := st.samplenum_edge,
                     bits := some (if bs.length ≤ 16
                       then bs.push (if st.oldsym ≠ Sym.SE0 then '0' else '1')
                       else bs) },
           [⟨st.samplenum_edge, some (pyint (sp + bw - bw / 2)),
             Ev.SYM .SE0⟩]) := by
  have hcond : ¬((if bs.length ≤ 16
        then bs.push (if st.oldsym ≠ Sym.SE0 then '0' else '1')
        else bs).length = 16 ∧
      (if bs.length ≤ 16
        then bs.push (if st.oldsym ≠ Sym.SE0 then '0' else '1')
        else bs) = "0000000100111100") := fun hh => hnp hh.2
  unfold get_bit
  rw [snts_ok st sp bw hsp hbw]
  dsimp only []
  rw [hbs, if_pos (show Sym.SE0 = Sym.SE0 from rfl)]
  dsimp only []
  rw [if_neg hcond]
  rfl

/-- A 16-bit string ending in '1' is never the preamble pattern, whose
last bit is '0'. -/
theorem push_one_ne_pattern (bs : String) :
    bs.push '1' ≠ "0000000100111100" := by
  intro h
  have hd : bs.data ++ ['1'] = ("0000000100111100" : String).data :=
    congrArg String.data h
  have h2 := congrArg List.getLast? hd
  rw [List.getLast?_concat] at h2
  revert h2
  decide
theorem c7_preamble_switch (st : DecState) (sym : Sym) (r sp bw : ℚ)
    (bs : String)
    (hr : st.samplerate = some r)
    (hsp : st.samplepos = some sp) (hbw : st.bitwidth = some bw)
    (hbs : st.bits = some bs) (hlen : bs.length = 15)
    (hpat : bs.push (if st.oldsym ≠ sym then '0' else '1') =
      "0000000100111100") :
    ∃ st' puts, get_bit st sym = .ok (st', puts) ∧
      st'.signalling = some .lowSpeedRP ∧ st'.state = .IDLE ∧
      st'.oldsym = .J ∧ st'.bitrate = some 1500000 ∧
      st'.bitwidth = some (r / 1500000) ∧
      ⟨some (pyint (sp + bw - bw / 2)), some (pyint (sp + bw - bw / 2)),
        Ev.EOP⟩ ∈ puts := by
  have hle16 : bs.length ≤ 16 := by rw [hlen]; norm_num
  have hpt : ("0000000100111100" : String).length = 16 ∧
      ("0000000100111100" : String) = "0000000100111100" := ⟨by decide, rfl⟩
  by_cases hos : st.oldsym = sym
  · rw [if_neg (not_not_intro hos)] at hpat
    exact absurd hpat (push_one_ne_pattern bs)
  · rw [if_pos hos] at hpat
    unfold get_bit
    rw [snts_ok st sp bw hsp hbw]
    dsimp only []
    rw [if_pos hos]
    by_cases hsym : sym = Sym.SE0
    · rw [if_pos hsym]
      dsimp only []
      rw [hbs]
      dsimp only []
      rw [if_pos hle16, hpat, if_pos hpt]
      unfold update_bitrate
      dsimp only [bitrates]
      rw [hr]
      dsimp only []
      exact ⟨_, _, rfl, rfl, rfl, rfl, rfl, rfl, by simp [putpx]⟩
    · rw [if_neg hsym]
      unfold handle_bit
      dsimp only []
      by_cases hc6 : st.consecutive_ones = 6
      · rw [if_pos hc6, if_pos (show ('0' : Char) = '0' from rfl)]
        dsimp only []
        rw [hbs]
        dsimp only []
        rw [if_pos hle16, hpat, if_pos hpt]
        unfold update_bitrate
        dsimp only [bitrates]
        rw [hr]
        dsimp only []
        exact ⟨_, _, rfl, rfl, rfl, rfl, rfl, rfl, by simp [putpx]⟩
      · rw [if_neg hc6, if_neg (show ¬(('0' : Char) = '1') from by decide)]
        dsimp only []
        rw [hbs]
        dsimp only []
        rw [if_pos hle16, hpat, if_pos hpt]
        unfold update_bitrate
        dsimp only [bitrates]
        rw [hr]
        dsimp only []
        exact ⟨_, _, rfl, rfl, rfl, rfl, rfl, rfl, by simp [putpx]⟩

/-! ## C5 -/

/-- C5: end-of-packet handling. In GET BIT an SE0 symbol enters GET EOP
recording the EOP start (`ss_block`) at the edge where the SE0 began,
emitting neither EOP nor ERR; in GET EOP an SE0 keeps waiting (one SYM
event only), a J yields exactly one EOP event ranging from the recorded
first-SE0 edge to the J transition edge and moves to WAIT IDLE, and any
other symbol (K, SE1) yields exactly one ERR event and returns directly
to IDLE. -/
theorem c5_eop_detection (st : DecState) (sp bw : ℚ) (bs : String)
    (hsp : st.samplepos = some sp) (hbw : st.bitwidth = some bw) :
    (st.bits = some bs →
      (if bs.length ≤ 16
        then bs.push (if st.oldsym ≠ Sym.SE0 then '0' else '1')
        else bs) ≠ "0000000100111100" →
      ∃ st' puts, get_bit st .SE0 = .ok (st', puts) ∧
        st'.state = .GET_EOP ∧ st'.ss_block = st.samplenum_edge ∧
        ∀ p ∈ puts, p.ev ≠ Ev.EOP ∧ p.ev ≠ Ev.ERR) ∧
    (∃ st' puts, get_eop st .SE0 = .ok (st', puts) ∧
      st'.state = st.state ∧
      puts = [⟨st.samplenum_edge, some (pyint (sp + bw - bw / 2)),
              Ev.SYM .SE0⟩]) ∧
    (∃ st', get_eop st .J =
        .ok (st', [⟨st.samplenum_edge, some (pyint (sp + bw - bw / 2)),
                    Ev.SYM .J⟩,
                   ⟨st.ss_block, some (pyint (sp + bw - bw / 2)), Ev.EOP⟩]) ∧
      st'.state = .WAIT_IDLE) ∧
    (∀ sym, sym ≠ .SE0 → sym ≠ .J →
      ∃ st', get_eop st sym =
          .ok (st', [⟨st.samplenum_edge, some (pyint (sp + bw - bw / 2)),
                      Ev.SYM sym⟩,
                     ⟨st.ss_block, some (pyint (sp + bw - bw / 2)), Ev.ERR⟩]) ∧
        st'.state = .IDLE) := by
  refine ⟨?_, ?_, ?_, ?_⟩
  · intro hbs hnp
    exact ⟨_, _, get_bit_se0 st sp bw bs hsp hbw hbs hnp, rfl, rfl, by simp⟩
  · exact ⟨_, _, get_eop_se0 st sp bw hsp hbw, rfl, rfl⟩
  · exact ⟨_, get_eop_j st sp bw hsp hbw, rfl⟩
  · intro sym h0 h1
    exact ⟨_, get_eop_err st sym sp bw hsp hbw h0 h1, rfl⟩

/-- Concrete mid-packet state for the C5 witness. -/
def c5st : DecState :=
  { initState .fullSpeed with samplerate := some 12000000,
                              signalling := some .fullSpeed,
                              bitrate := some 12000000,
                              bitwidth := some 4,
                              samplepos := some 10,
                              samplenum_edge := some 8,
                              ss_block := some 3,
                              bits := some "01",
                              oldsym := .K,
                              state := .GET_EOP }

/-- C5, witness: the EOP theorem applied at a concrete mid-packet state,
with every hypothesis discharged. -/
theorem c5_witness :
    (∃ st' puts, get_bit c5st .SE0 = .ok (st', puts) ∧
      st'.state = .GET_EOP ∧ st'.ss_block = c5st.samplenum_edge ∧
      ∀ p ∈ puts, p.ev ≠ Ev.EOP ∧ p.ev ≠ Ev.ERR) ∧
    (∃ st' puts, get_eop c5st .SE0 = .ok (st', puts) ∧
      st'.state = c5st.state ∧
      puts = [⟨c5st.samplenum_edge, some (pyint (10 + 4 - 4 / 2)),
              Ev.SYM .SE0⟩]) ∧
    (∃ st', get_eop c5st .J =
        .ok (st', [⟨c5st.samplenum_edge, some (pyint (10 + 4 - 4 / 2)),
                    Ev.SYM .J⟩,
                   ⟨c5st.ss_block, some (pyint (10 + 4 - 4 / 2)), Ev.EOP⟩]) ∧
      st'.state = .WAIT_IDLE) ∧
    (∃ st', get_eop c5st .K =
        .ok (st', [⟨c5st.samplenum_edge, some (pyint (10 + 4 - 4 / 2)),
                    Ev.SYM .K⟩,
                   ⟨c5st.ss_block, some (pyint (10 + 4 - 4 / 2)), Ev.ERR⟩]) ∧
      st'.state = .IDLE) :=
  ⟨(c5_eop_detection c5st 10 4 "01" rfl rfl).1 rfl (by decide),
   (c5_eop_detection c5st 10 4 "01" rfl rfl).2.1,
   (c5_eop_detection c5st 10 4 "01" rfl rfl).2.2.1,
   (c5_eop_detection c5st 10 4 "01" rfl rfl).2.2.2 .K (by decide) (by decide)⟩

/-! ## C7 (claim theorem is c7_preamble_switch above) -/

/-- Concrete state for the C7 witness: a GET BIT state whose packet has
accumulated the first 15 bits of the preamble pattern. -/
def c7st : DecState :=
  { initState .fullSpeed with samplerate := some 12000000,
                              signalling := some .fullSpeed,
                              bitrate := some 12000000,
                              bitwidth := some 1,
                              samplepos := some 34,
                              bits := some "000000010011110",
                              oldsym := .J,
                              state := .GET_BIT }

/-- C7, witness: the preamble-switch theorem applied at a concrete state
receiving the 16th pattern bit. -/
theorem c7_witness :
    ∃ st' puts, get_bit c7st .K = .ok (st', puts) ∧
      st'.signalling = some .lowSpeedRP ∧ st'.state = .IDLE ∧
      st'.oldsym = .J ∧ st'.bitrate = some 1500000 ∧
      st'.bitwidth = some (12000000 / 1500000) ∧
      ⟨some (pyint (34 + 1 - 1 / 2)), some (pyint (34 + 1 - 1 / 2)),
        Ev.EOP⟩ ∈ puts :=
  c7_preamble_switch c7st .K 12000000 34 1 "000000010011110"
    rfl rfl rfl rfl (by decide) (by decide)

/-! ## C6 -/

/-- The speed re-detection step at the end of `handle_idle` never fails
when the samplerate is set, and changes the signalling mode exactly for
the FS_J / LS_J idle symbols. -/
theorem hidle_speed_step (st1 : DecState) (sym : Sym) (r : ℚ)
    (hr1 : st1.samplerate = some r) :
    ∃ st2, (if sym = .FSJ then
              update_bitrate { st1 with signalling := some .fullSpeed }
            else if sym = .LSJ then
              update_bitrate { st1 with signalling := some .lowSpeed }
            else .ok st1) = .ok st2 ∧
      st2.signalling = (if sym = .FSJ then some .fullSpeed
        else if sym = .LSJ then some .lowSpeed else st1.signalling) ∧
      st2.state = st1.state ∧ st2.oldsym = st1.oldsym ∧
      st2.samplenum = st1.samplenum ∧
      st2.samplenum_edge = st1.samplenum_edge ∧
      st2.samplenum_lastedge = st1.samplenum_lastedge ∧
      st2.opt_signalling = st1.opt_signalling ∧
      st2.consecutive_ones = st1.consecutive_ones ∧
      st2.bits = st1.bits := by
  by_cases hF : sym = .FSJ
  · simp only [if_pos hF]
    unfold update_bitrate
    dsimp only [bitrates]
    rw [hr1]
    exact ⟨_, rfl, rfl, rfl, rfl, rfl, rfl, rfl, rfl, rfl, rfl⟩
  · simp only [if_neg hF]
    by_cases hL : sym = .LSJ
    · simp only [if_pos hL]
      unfold update_bitrate
      dsimp only [bitrates]
      rw [hr1]
      exact ⟨_, rfl, rfl, rfl, rfl, rfl, rfl, rfl, rfl, rfl, rfl⟩
    · simp only [if_neg hL]
      exact ⟨_, rfl, rfl, rfl, rfl, rfl, rfl, rfl, rfl, rfl, rfl⟩
theorem c6_idle_gap (st : DecState) (sym : Sym) (r : ℚ) (le : ℤ) (sig : Mode)
    (hr : st.samplerate = some r) (hr0 : r ≠ 0)
    (hle : st.samplenum_lastedge = some le) (hsig : st.signalling = some sig) :
    ∃ st', handle_idle st sym = .ok (st',
        if ((st.samplenum - le : ℤ) : ℚ) / r > 25 / 10000000 then
          [⟨some le, some st.samplenum, Ev.RESET⟩]
        else if ((st.samplenum - le : ℤ) : ℚ) / r > 12 / 10000000 ∧
            sig = .lowSpeed then
          [⟨some le, some st.samplenum, Ev.KEEP_ALIVE⟩]
        else []) ∧
      st'.state = .IDLE ∧ st'.oldsym = .J ∧
      st'.signalling = some (if sym = .FSJ then .fullSpeed
        else if sym = .LSJ then .lowSpeed
        else if ((st.samplenum - le : ℤ) : ℚ) / r > 25 / 10000000 then
          st.opt_signalling else sig) := by
  unfold handle_idle
  dsimp only []
  rw [hr, hle]
  try dsimp only []
  rw [if_neg hr0]
  by_cases hA : ((st.samplenum - le : ℤ) : ℚ) / r > 25 / 10000000
  · simp only [if_pos hA]
    try dsimp only []
    obtain ⟨st2, hstep, hsg, h3, h4, -⟩ :=
      hidle_speed_step { st with samplenum_edge := some st.samplenum,
                                 signalling := some st.opt_signalling } sym r hr
    try dsimp only [] at hstep hsg
    try simp only [hr, hle, hsig] at hstep hsg
    rw [hstep]
    refine ⟨_, rfl, rfl, rfl, ?_⟩
    rw [hsg]
    by_cases hF : sym = Sym.FSJ
    · simp [hF]
    · by_cases hL : sym = Sym.LSJ <;> simp [hF, hL]
  · simp only [if_neg hA]
    by_cases hB : ((st.samplenum - le : ℤ) : ℚ) / r > 12 / 10000000
    · simp only [if_pos hB]
      rw [hsig]
      try dsimp only []
      by_cases hS : sig = .lowSpeed
      · simp only [if_pos hS, if_pos (show _ ∧ _ from ⟨hB, hS⟩)]
        obtain ⟨st2, hstep, hsg, h3, h4, -⟩ :=
          hidle_speed_step { st with samplenum_edge := some st.samplenum }
            sym r hr
        try dsimp only [] at hstep hsg
        try simp only [hr, hle, hsig] at hstep hsg
        rw [hstep]
        refine ⟨_, rfl, rfl, rfl, ?_⟩
        rw [hsg]
        by_cases hF : sym = Sym.FSJ
        · simp [hF]
        · by_cases hL : sym = Sym.LSJ <;> simp [hF, hL]
      · simp only [if_neg hS, if_neg (show ¬(_ ∧ _) from fun hh => hS hh.2)]
        obtain ⟨st2, hstep, hsg, h3, h4, -⟩ :=
          hidle_speed_step { st with samplenum_edge := some st.samplenum }
            sym r hr
        try dsimp only [] at hstep hsg
        try simp only [hr, hle, hsig] at hstep hsg
        rw [hstep]
        refine ⟨_, rfl, rfl, rfl, ?_⟩
        rw [hsg]
        by_cases hF : sym = Sym.FSJ
        · simp [hF]
        · by_cases hL : sym = Sym.LSJ <;> simp [hF, hL]
    · simp only [if_neg hB, if_neg (show ¬(_ ∧ _) from fun hh => hB hh.1)]
      obtain ⟨st2, hstep, hsg, h3, h4, -⟩ :=
        hidle_speed_step { st with samplenum_edge := some st.samplenum }
          sym r hr
      try dsimp only [] at hstep hsg
      try simp only [hr, hle] at hstep hsg
      rw [hstep]
      refine ⟨_, rfl, rfl, rfl, ?_⟩
      rw [hsg]
      by_cases hF : sym = Sym.FSJ
      · simp [hF]
      · by_cases hL : sym = Sym.LSJ <;> simp [hF, hL, hsig]

/-- Concrete WAIT IDLE state (automatic option, auto-detected low-speed
mode, 2.6 microsecond gap at 10 MHz) for the C6 counterexample. -/
def c6st : DecState :=
  { initState .automatic with samplerate := some 10000000,
                              signalling := some .lowSpeed,
                              samplenum := 26,
                              samplenum_lastedge := some 0,
                              state := .WAIT_IDLE }

/-- C6, counterexample: with a 2.6 microsecond gap the code emits exactly
one RESET, but when the idle symbol classifies as FS_J under the
configured automatic table, the signalling mode ends at full-speed, not
at the externally configured option (automatic): the auto-speed lock runs
after the revert inside the same classification. -/
theorem c6_counterexample :
    (handle_idle c6st .FSJ).map
        (fun res => (res.1.signalling, res.2.map Put.ev)) =
      .ok (some Mode.fullSpeed, [Ev.RESET]) ∧
    c6st.opt_signalling = .automatic ∧
    ((c6st.samplenum - 0 : ℤ) : ℚ) / 10000000 > 25 / 10000000 ∧
    Mode.fullSpeed ≠ Mode.automatic := by
  refine ⟨by decide!, rfl, by decide!, by decide⟩

/-- Concrete idle states for the C6 witness: gaps of exactly 2.6, 1.3 and
1.0 microseconds at a 10 MHz sampling rate, in low-speed mode. -/
def c6w (n : ℤ) : DecState :=
  { initState .automatic with samplerate := some 10000000,
                              signalling := some .lowSpeed,
                              samplenum := n,
                              samplenum_lastedge := some 0,
                              state := .WAIT_IDLE }

/-- C6, witness: the amended idle-gap theorem applied at gaps of exactly
2.6 (Reset), 1.3 (Keep-Alive in low-speed mode) and 1.0 microseconds
(neither), with an idle J symbol. -/
theorem c6_witness :
    (∃ st', handle_idle (c6w 26) .J = .ok (st',
        if (((c6w 26).samplenum - 0 : ℤ) : ℚ) / 10000000 > 25 / 10000000 then
          [⟨some 0, some (c6w 26).samplenum, Ev.RESET⟩]
        else if (((c6w 26).samplenum - 0 : ℤ) : ℚ) / 10000000 >
            12 / 10000000 ∧ Mode.lowSpeed = .lowSpeed then
          [⟨some 0, some (c6w 26).samplenum, Ev.KEEP_ALIVE⟩]
        else []) ∧
      st'.state = .IDLE ∧ st'.oldsym = .J ∧
      st'.signalling = some (if Sym.J = Sym.FSJ then .fullSpeed
        else if Sym.J = Sym.LSJ then .lowSpeed
        else if (((c6w 26).samplenum - 0 : ℤ) : ℚ) / 10000000 >
            25 / 10000000 then
          (c6w 26).opt_signalling else .lowSpeed)) ∧
    (∃ st', handle_idle (c6w 13) .J = .ok (st',
        if (((c6w 13).samplenum - 0 : ℤ) : ℚ) / 10000000 > 25 / 10000000 then
          [⟨some 0, some (c6w 13).samplenum, Ev.RESET⟩]
        else if (((c6w 13).samplenum - 0 : ℤ) : ℚ) / 10000000 >
            12 / 10000000 ∧ Mode.lowSpeed = .lowSpeed then
          [⟨some 0, some (c6w 13).samplenum, Ev.KEEP_ALIVE⟩]
        else []) ∧
      st'.state = .IDLE ∧ st'.oldsym = .J ∧
      st'.signalling = some (if Sym.J = Sym.FSJ then .fullSpeed
        else if Sym.J = Sym.LSJ then .lowSpeed
        else if (((c6w 13).samplenum - 0 : ℤ) : ℚ) / 10000000 >
            25 / 10000000 then
          (c6w 13).opt_signalling else .lowSpeed)) ∧
    (∃ st', handle_idle (c6w 10) .J = .ok (st',
        if (((c6w 10).samplenum - 0 : ℤ) : ℚ) / 10000000 > 25 / 10000000 then
          [⟨some 0, some (c6w 10).samplenum, Ev.RESET⟩]
        else if (((c6w 10).samplenum - 0 : ℤ) : ℚ) / 10000000 >
            12 / 10000000 ∧ Mode.lowSpeed = .lowSpeed then
          [⟨some 0, some (c6w 10).samplenum, Ev.KEEP_ALIVE⟩]
        else []) ∧
      st'.state = .IDLE ∧ st'.oldsym = .J ∧
      st'.signalling = some (if Sym.J = Sym.FSJ then .fullSpeed
        else if Sym.J = Sym.LSJ then .lowSpeed
        else if (((c6w 10).samplenum - 0 : ℤ) : ℚ) / 10000000 >
            25 / 10000000 then
          (c6w 10).opt_signalling else .lowSpeed)) ∧
    ((26 : ℚ) / 10000000 > 25 / 10000000 ∧
     ¬((13 : ℚ) / 10000000 > 25 / 10000000) ∧
     (13 : ℚ) / 10000000 > 12 / 10000000 ∧
     ¬((10 : ℚ) / 10000000 > 12 / 10000000)) :=
  ⟨c6_idle_gap (c6w 26) .J 10000000 0 .lowSpeed rfl (by decide) rfl rfl,
   c6_idle_gap (c6w 13) .J 10000000 0 .lowSpeed rfl (by decide) rfl rfl,
   c6_idle_gap (c6w 10) .J 10000000 0 .lowSpeed rfl (by decide) rfl rfl,
   by decide!, by decide!, by decide!, by decide!⟩

/-! ## C3 -/

/-- C3, amended: on EVERY confirmed SOP (J-to-K with J baseline), the
nominal start candidate is the code's `sop_shift` of
samplenum - 1/2 - bitwidth/2: unchanged when there is no preceding
sample or it classified as J, shifted back by half a sample when it
classified as anything but J (in particular SE0/SE1) - both cases are
characterized below. The heuristic then scores the two candidate
offsets (0 and +1 sample) via the lookahead walk of `samplepos_quality`
(which starts 2 bit widths past the candidate and steps one bit width
per buffered J/K sample until a non-J/K symbol), and selects the +1
candidate exactly when its score is numerically HIGHER - not lower as
the claim states - so a tie keeps offset 0. -/
theorem c3_sop_alignment (st : DecState) (r brv sp0 q0 q1 : ℚ) (sig : Mode)
    (hold : st.oldsym = .J)
    (hr : st.samplerate = some r)
    (hsig : st.signalling = some sig)
    (hbrv : bitrates sig = some brv)
    (hbw : st.bitwidth = some (r / brv))
    (hshift : sop_shift st ((st.samplenum : ℚ) - 1 / 2 - r / brv / 2) =
      .ok sp0)
    (hq0 : samplepos_quality st sp0 = .ok q0)
    (hq1 : samplepos_quality st (sp0 + 1) = .ok q1) :
    ∃ st' puts, wait_for_sop st .K = .ok (st', puts) ∧
      samplepos_quality st (if q0 < q1 then sp0 + 1 else sp0) =
        .ok (max q0 q1) ∧
      st'.samplepos = some ((if q0 < q1 then sp0 + 1 else sp0) + r / brv) ∧
      (st.edgepins = none →
        sp0 = (st.samplenum : ℚ) - 1 / 2 - r / brv / 2) ∧
      (∀ ep s, st.edgepins = some ep → symLookup sig ep = some s →
        (s = .J → sp0 = (st.samplenum : ℚ) - 1 / 2 - r / brv / 2) ∧
        (s ≠ .J →
          sp0 = (st.samplenum : ℚ) - 1 / 2 - r / brv / 2 - 1 / 2)) ∧
      st'.state = .GET_BIT ∧
      ∃ e, puts = [⟨e, e, Ev.SOP⟩] := by
  have hchar1 : st.edgepins = none →
      sp0 = (st.samplenum : ℚ) - 1 / 2 - r / brv / 2 := by
    intro hep
    have hv : sop_shift st ((st.samplenum : ℚ) - 1 / 2 - r / brv / 2) =
        .ok ((st.samplenum : ℚ) - 1 / 2 - r / brv / 2) := by
      unfold sop_shift
      rw [hep]
    rw [hv] at hshift
    exact (Except.ok.inj hshift).symm
  have hchar2 : ∀ ep s, st.edgepins = some ep → symLookup sig ep = some s →
      (s = .J → sp0 = (st.samplenum : ℚ) - 1 / 2 - r / brv / 2) ∧
      (s ≠ .J →
        sp0 = (st.samplenum : ℚ) - 1 / 2 - r / brv / 2 - 1 / 2) := by
    intro ep s hep hs
    have hv : sop_shift st ((st.samplenum : ℚ) - 1 / 2 - r / brv / 2) =
        (if s ≠ .J then
          .ok ((st.samplenum : ℚ) - 1 / 2 - r / brv / 2 - 1 / 2)
         else .ok ((st.samplenum : ℚ) - 1 / 2 - r / brv / 2)) := by
      unfold sop_shift
      rw [hep]
      dsimp only []
      rw [hsig]
      dsimp only []
      rw [hs]
    rw [hv] at hshift
    constructor
    · intro hJ
      rw [if_neg (fun hc => hc hJ)] at hshift
      exact (Except.ok.inj hshift).symm
    · intro hnJ
      rw [if_pos hnJ] at hshift
      exact (Except.ok.inj hshift).symm
  unfold wait_for_sop
  rw [if_neg (show ¬(Sym.K ≠ Sym.K ∨ st.oldsym ≠ Sym.J) from
    fun h => h.elim (fun h1 => h1 rfl) (fun h2 => h2 hold))]
  rw [hbw]
  dsimp only []
  rw [hshift]
  dsimp only []
  have hrec : ({ st with
      bitwidth := some (r / brv), samplepos := some sp0 } : DecState) =
      { st with samplepos := some sp0 } := by
    rw [← hbw]
  simp only [hrec, quality_set_samplepos st (some sp0)]
  rw [hq0, hq1]
  dsimp only []
  by_cases hlt : q0 < q1
  · simp only [if_pos hlt]
    unfold update_bitrate
    dsimp only []
    rw [hsig]
    dsimp only []
    rw [hbrv, hr]
    dsimp only []
    rw [snts_ok _ (sp0 + 1) (r / brv) rfl rfl]
    refine ⟨_, _, rfl, ?_, rfl, hchar1, hchar2, rfl, _, rfl⟩
    rw [max_eq_right hlt.le]
    exact hq1
  · simp only [if_neg hlt]
    unfold update_bitrate
    dsimp only []
    rw [hsig]
    dsimp only []
    rw [hbrv, hr]
    dsimp only []
    rw [snts_ok _ sp0 (r / brv) rfl rfl]
    refine ⟨_, _, rfl, ?_, rfl, hchar1, hchar2, rfl, _, rfl⟩
    rw [max_eq_left (not_lt.mp hlt)]
    exact hq0
/-- Concrete pre-SOP state for the C3 counterexample: bit width 4,
K seen at sample 100, lookahead buffer holding an SE1 at sample 105. -/
def c3st : DecState :=
  { initState .fullSpeed with samplerate := some 48000000,
                              signalling := some .fullSpeed,
                              bitrate := some 12000000,
                              bitwidth := some 4,
                              samplenum := 100,
                              oldsym := .J,
                              state := .IDLE,
                              lookahead_buffer := some [(105, (true, true))] }

/-- C3, counterexample: at `c3st` the candidate start positions are 97.5
and 98.5; their quality scores (projected first non-J/K positions) are
105.5 and 106.5, and the code selects the 98.5 candidate - the one whose
projected position is numerically HIGHER (final running position
102.5 = 98.5 + bit width). The claim, which says the numerically lower
projection wins, predicts the 97.5 candidate instead. -/
theorem c3_counterexample :
    ((c3st.samplenum : ℚ) - 1 / 2 - 4 / 2 = 195 / 2) ∧
    samplepos_quality c3st (195 / 2) = .ok (211 / 2) ∧
    samplepos_quality c3st (197 / 2) = .ok (213 / 2) ∧
    ((211 / 2 : ℚ) < 213 / 2) ∧
    (wait_for_sop c3st .K).map (fun res => res.1.samplepos) =
      .ok (some (205 / 2)) ∧
    (205 / 2 : ℚ) = 197 / 2 + 4 := by
  refine ⟨by decide!, by decide!, by decide!, by decide!, by decide!, by decide!⟩

/-- Concrete pre-SOP state for the C3 witness, with the preceding sample
pins at SE0 so the half-sample shift applies. -/
def c3w : DecState :=
  { initState .fullSpeed with samplerate := some 48000000,
                              signalling := some .fullSpeed,
                              bitrate := some 12000000,
                              bitwidth := some (48000000 / 12000000),
                              samplenum := 100,
                              oldsym := .J,
                              edgepins := some (false, false),
                              state := .IDLE,
                              lookahead_buffer := some [(105, (true, true))] }

/-- Concrete pre-SOP state for the tie half of the C3 witness: bit
width 1, no preceding edge pins, and a lookahead buffer tuned so both
candidate offsets score exactly 102. -/
def c3t : DecState :=
  { initState .fullSpeed with samplerate := some 12000000,
                              signalling := some .fullSpeed,
                              bitrate := some 12000000,
                              bitwidth := some (12000000 / 12000000),
                              samplenum := 100,
                              oldsym := .J,
                              state := .IDLE,
                              lookahead_buffer :=
                                some [(101, (true, false)),
                                      (102, (false, false))] }

/-- C3, witness: the amended alignment theorem applied at a concrete
state with a preceding SE0 sample (half-sample shift, scores 105 < 106,
the +1 candidate wins) and at a concrete tie state (scores 102 = 102,
offset 0 is kept). -/
theorem c3_witness :
    (∃ st' puts, wait_for_sop c3w .K = .ok (st', puts) ∧
      samplepos_quality c3w
          (if (105 : ℚ) < 106 then (97 : ℚ) + 1 else 97) =
        .ok (max 105 106) ∧
      st'.samplepos = some ((if (105 : ℚ) < 106 then (97 : ℚ) + 1 else 97) +
        48000000 / 12000000) ∧
      (c3w.edgepins = none →
        (97 : ℚ) = (c3w.samplenum : ℚ) - 1 / 2 - 48000000 / 12000000 / 2) ∧
      (∀ ep s, c3w.edgepins = some ep →
        symLookup Mode.fullSpeed ep = some s →
        (s = .J → (97 : ℚ) =
          (c3w.samplenum : ℚ) - 1 / 2 - 48000000 / 12000000 / 2) ∧
        (s ≠ .J → (97 : ℚ) =
          (c3w.samplenum : ℚ) - 1 / 2 - 48000000 / 12000000 / 2 - 1 / 2)) ∧
      st'.state = .GET_BIT ∧
      ∃ e, puts = [⟨e, e, Ev.SOP⟩]) ∧
    (∃ st' puts, wait_for_sop c3t .K = .ok (st', puts) ∧
      samplepos_quality c3t
          (if (102 : ℚ) < 102 then (99 : ℚ) + 1 else 99) =
        .ok (max 102 102) ∧
      st'.samplepos = some ((if (102 : ℚ) < 102 then (99 : ℚ) + 1 else 99) +
        12000000 / 12000000) ∧
      (c3t.edgepins = none →
        (99 : ℚ) = (c3t.samplenum : ℚ) - 1 / 2 - 12000000 / 12000000 / 2) ∧
      (∀ ep s, c3t.edgepins = some ep →
        symLookup Mode.fullSpeed ep = some s →
        (s = .J → (99 : ℚ) =
          (c3t.samplenum : ℚ) - 1 / 2 - 12000000 / 12000000 / 2) ∧
        (s ≠ .J → (99 : ℚ) =
          (c3t.samplenum : ℚ) - 1 / 2 - 12000000 / 12000000 / 2 - 1 / 2)) ∧
      st'.state = .GET_BIT ∧
      ∃ e, puts = [⟨e, e, Ev.SOP⟩]) ∧
    ((105 : ℚ) < 106) ∧ ¬((102 : ℚ) < 102) :=
  ⟨c3_sop_alignment c3w 48000000 12000000 97 105 106 .fullSpeed rfl rfl
     rfl (by decide!) rfl (by decide!) (by decide!) (by decide!),
   c3_sop_alignment c3t 12000000 12000000 99 102 102 .fullSpeed rfl rfl
     rfl (by decide!) rfl (by decide!) (by decide!) (by decide!),
   by decide!, by decide!⟩

/-! ## C1 -/

/-- C1, amended: decode raises SamplerateError, independently of the
input data, whenever the samplerate attribute is unset (None) or set to
0 (the guard tests Python falsiness, not presence - see the
counterexample); whenever a NONZERO sampling rate has been supplied,
decode never raises this failure and proceeds into the streaming
loop. -/
theorem c1_samplerate_gate (st : DecState) (data : List (ℤ × Pins)) :
    (st.samplerate = none ∨ st.samplerate = some 0 →
      decode st data = .error SamplerateError.mk) ∧
    (∀ r : ℚ, st.samplerate = some r → r ≠ 0 →
      ∃ res, decode st data = .ok res) := by
  constructor
  · rintro (h | h) <;> simp [decode, qTruthy, h]
  · intro r hr hr0
    have hcomp : decode st data =
        .ok (match data with
             | [] => .error .stopIteration
             | d :: rest =>
               decode_loop rest (List.replicate 192 d)
                 { st with lookahead_buffer := some (List.replicate 192 d) }
                 []) := by
      unfold decode
      rw [hr]
      rw [if_pos (show qTruthy (some r) = true from by
        unfold qTruthy
        dsimp only []
        rw [if_neg hr0])]
    exact ⟨_, hcomp⟩

/-- Concrete configured state for the C1 witness. -/
def c1w : DecState :=
  { initState .fullSpeed with samplerate := some 12000000,
                              signalling := some .fullSpeed }

/-- C1, counterexample: supplying a sampling rate of 0 through `metadata`
still makes decode raise SamplerateError (the code tests Python
truthiness, not presence), so "if a sampling rate has been supplied,
decode never raises this failure" is false as stated. -/
theorem c1_counterexample :
    (metadata (initState .fullSpeed) 0).map
      (fun st0 => decode st0 [((0 : ℤ), (true, false))]) =
    .ok (.error SamplerateError.mk) := by
  decide!

/-- Concrete state whose supplied sampling rate is 0, for the C1
witness. -/
def c1z : DecState :=
  { initState .fullSpeed with samplerate := some 0 }

/-- C1, witness: the gate theorem applied to an unconfigured state and a
zero-rate state (the error side) and a concrete 12 MHz state (the
success side). -/
theorem c1_witness :
    decode (initState .fullSpeed) [((0 : ℤ), (true, false))]
      = .error SamplerateError.mk ∧
    decode c1z [((0 : ℤ), (true, false))] = .error SamplerateError.mk ∧
    ∃ res, decode c1w [((0 : ℤ), (true, false))] = .ok res :=
  ⟨(c1_samplerate_gate (initState .fullSpeed)
      [((0 : ℤ), (true, false))]).1 (Or.inl rfl),
   (c1_samplerate_gate c1z [((0 : ℤ), (true, false))]).1 (Or.inr rfl),
   (c1_samplerate_gate c1w [((0 : ℤ), (true, false))]).2 12000000 rfl
     (by decide)⟩

/-! ## Shape lemmas for the state machine -/

/-- `get_eop` never changes the signalling mode or the configured
option. -/
theorem geop_shape (st : DecState) (sym : Sym) (st' : DecState)
    (puts : List Put) (h : get_eop st sym = .ok (st', puts)) :
    st'.signalling = st.signalling ∧
    st'.opt_signalling = st.opt_signalling := by
  unfold get_eop at h
  split at h
  · exact absurd h (by simp)
  · rename_i stN hsnts
    dsimp only [] at h
    obtain ⟨-, s2, -, -, -, -, s7, -⟩ := snts_fields _ _ hsnts
    split at h
    · simp only [Except.ok.injEq, Prod.mk.injEq] at h
      obtain ⟨h1, -⟩ := h
      subst h1
      exact ⟨s2, s7⟩
    · split at h
      · simp only [Except.ok.injEq, Prod.mk.injEq] at h
        obtain ⟨h1, -⟩ := h
        subst h1
        exact ⟨s2, s7⟩
      · simp only [Except.ok.injEq, Prod.mk.injEq] at h
        obtain ⟨h1, -⟩ := h
        subst h1
        exact ⟨s2, s7⟩

/-- If appending a bit when at most 16 bits are collected yields the
preamble pattern, the pattern is reached by a push. -/
theorem preamble_cond_push (bs : String) (b : Char)
    (h : (if bs.length ≤ 16 then bs.push b else bs) = "0000000100111100") :
    ∃ b2, bs.push b2 = "0000000100111100" := by
  by_cases hbl : bs.length ≤ 16
  · rw [if_pos hbl] at h
    exact ⟨b, h⟩
  · rw [if_neg hbl] at h
    rw [h] at hbl
    exact absurd (by decide) hbl

/-- `get_bit` keeps the configured option, and either keeps the
signalling mode or switches it to low-speed-rp, the latter only when
pushing one more bit onto the collected bits yields the 16-bit preamble
pattern. -/
theorem gbit_shape (st : DecState) (sym : Sym) (st' : DecState)
    (puts : List Put) (h : get_bit st sym = .ok (st', puts)) :
    st'.opt_signalling = st.opt_signalling ∧
    (st'.signalling = st.signalling ∨
     (st'.signalling = some .lowSpeedRP ∧
      ∃ bs b, st.bits = some bs ∧ bs.push b = "0000000100111100")) := by
  unfold get_bit at h
  split at h
  · exact absurd h (by simp)
  · rename_i stN hsnts
    dsimp only [] at h
    obtain ⟨-, s2, -, s4, -, -, s7, -⟩ := snts_fields _ _ hsnts
    generalize hbb : (if stN.oldsym ≠ sym then '0' else '1') = bb at h
    by_cases hsym : sym = Sym.SE0
    · rw [if_pos hsym] at h
      dsimp only [] at h
      split at h
      · exact absurd h (by simp)
      · rename_i bs hbs
        have hbs' : st.bits = some bs := by rw [← s4]; exact hbs
        generalize hb2 : (if bs.length ≤ 16 then bs.push bb else bs) =
          bits2 at h
        split at h
        · rename_i hcond
          split at h
          · exact absurd h (by simp)
          · rename_i stU hub
            simp only [Except.ok.injEq, Prod.mk.injEq] at h
            obtain ⟨h1, -⟩ := h
            subst h1
            obtain ⟨-, u2, -, -, -, -, u7, -⟩ := update_bitrate_fields _ _ hub
            refine ⟨by simp [u7, s7], Or.inr ⟨by simp [u2], bs, ?_⟩⟩
            obtain ⟨b2, hpb⟩ := preamble_cond_push bs bb (hb2 ▸ hcond.2)
            exact ⟨b2, hbs', hpb⟩
        · simp only [Except.ok.injEq, Prod.mk.injEq] at h
          obtain ⟨h1, -⟩ := h
          subst h1
          exact ⟨by simp [s7], Or.inl (by simp [s2])⟩
    · rw [if_neg hsym] at h
      have hb := handle_bit_fields { stN with oldsym := sym } bb
      rw [hb.2.1] at h
      dsimp only [] at h
      split at h
      · exact absurd h (by simp)
      · rename_i bs hbs
        have hbs' : st.bits = some bs := by rw [← s4]; exact hbs
        generalize hb2 : (if bs.length ≤ 16 then bs.push bb else bs) =
          bits2 at h
        split at h
        · rename_i hcond
          split at h
          · exact absurd h (by simp)
          · rename_i stU hub
            simp only [Except.ok.injEq, Prod.mk.injEq] at h
            obtain ⟨h1, -⟩ := h
            subst h1
            obtain ⟨-, u2, -, -, -, -, u7, -⟩ := update_bitrate_fields _ _ hub
            refine ⟨?_, Or.inr ⟨by simp [u2], bs, ?_⟩⟩
            · rw [← s7]
              rw [show ({ stN with oldsym := sym } :
                  DecState).opt_signalling = stN.opt_signalling from rfl] at hb
              simpa [hb.2.2.2.2.2.2.1] using u7
            · obtain ⟨b2, hpb⟩ := preamble_cond_push bs bb (hb2 ▸ hcond.2)
              exact ⟨b2, hbs', hpb⟩
        · simp only [Except.ok.injEq, Prod.mk.injEq] at h
          obtain ⟨h1, -⟩ := h
          subst h1
          constructor
          · rw [← s7]
            exact hb.2.2.2.2.2.2.1
          · left
            rw [← s2]
            exact hb.2.2.2.2.2.1

/-- The speed re-detection tail of `handle_idle`: the configured option
is kept and the signalling mode is kept or locked to a detected speed. -/
theorem hidle_tail (stG : DecState) (sym : Sym) (stS : DecState)
    (hspeed : (if sym = .FSJ then
          update_bitrate { stG with signalling := some .fullSpeed }
        else if sym = .LSJ then
          update_bitrate { stG with signalling := some .lowSpeed }
        else .ok stG) = .ok stS) :
    stS.opt_signalling = stG.opt_signalling ∧
    (stS.signalling = stG.signalling ∨
     stS.signalling = some .fullSpeed ∨ stS.signalling = some .lowSpeed) := by
  split at hspeed
  · obtain ⟨-, v2, -, -, -, -, v7, -⟩ := update_bitrate_fields _ _ hspeed
    exact ⟨by simpa using v7, Or.inr (Or.inl (by simpa using v2))⟩
  · split at hspeed
    · obtain ⟨-, v2, -, -, -, -, v7, -⟩ := update_bitrate_fields _ _ hspeed
      exact ⟨by simpa using v7, Or.inr (Or.inr (by simpa using v2))⟩
    · simp only [Except.ok.injEq] at hspeed
      subst hspeed
      exact ⟨rfl, Or.inl rfl⟩

/-- Shape of `handle_idle`: it always returns to IDLE with a J baseline,
keeps the configured option, moves the signalling mode only to the
configured option or an auto-detected speed, and emits only RESET or
KEEP_ALIVE events. -/
theorem hidle_shape (st : DecState) (sym : Sym) (st' : DecState)
    (puts : List Put) (h : handle_idle st sym = .ok (st', puts)) :
    st'.state = .IDLE ∧ st'.oldsym = .J ∧
    st'.opt_signalling = st.opt_signalling ∧
    (st'.signalling = st.signalling ∨
     st'.signalling = some st.opt_signalling ∨
     st'.signalling = some .fullSpeed ∨ st'.signalling = some .lowSpeed) ∧
    (∀ p ∈ puts, p.ev = Ev.RESET ∨ p.ev = Ev.KEEP_ALIVE) := by
  unfold handle_idle at h
  dsimp only [] at h
  split at h
  case h_2 => exact absurd h (by simp)
  rename_i r le hr hle
  split at h
  · exact absurd h (by simp)
  by_cases hA : ((st.samplenum - le : ℤ) : ℚ) / r > 25 / 10000000
  · simp only [if_pos hA] at h
    try dsimp only [] at h
    split at h
    · exact absurd h (by simp)
    · rename_i stS hspeed
      simp only [Except.ok.injEq, Prod.mk.injEq] at h
      obtain ⟨h1, h2⟩ := h
      subst h1
      obtain ⟨t7, tsig⟩ := hidle_tail _ sym stS hspeed
      refine ⟨rfl, rfl, by simpa using t7, ?_, ?_⟩
      · rcases tsig with h' | h' | h'
        · exact Or.inr (Or.inl (by simpa using h'))
        · exact Or.inr (Or.inr (Or.inl (by simpa using h')))
        · exact Or.inr (Or.inr (Or.inr (by simpa using h')))
      · intro p hp
        rw [← h2] at hp
        simp [putpb] at hp
        simp [hp]
  · simp only [if_neg hA] at h
    by_cases hB : ((st.samplenum - le : ℤ) : ℚ) / r > 12 / 10000000
    · simp only [if_pos hB] at h
      rcases hsig : st.signalling with _ | sig
      · rw [hsig] at h
        exact absurd h (by simp)
      · rw [hsig] at h
        try dsimp only [] at h
        by_cases hS : sig = .lowSpeed
        · simp only [if_pos hS] at h
          try dsimp only [] at h
          split at h
          · exact absurd h (by simp)
          · rename_i stS hspeed
            simp only [Except.ok.injEq, Prod.mk.injEq] at h
            obtain ⟨h1, h2⟩ := h
            subst h1
            obtain ⟨t7, tsig⟩ := hidle_tail _ sym stS hspeed
            refine ⟨rfl, rfl, by simpa using t7, ?_, ?_⟩
            · rcases tsig with h' | h' | h'
              · exact Or.inl (by simpa using h')
              · exact Or.inr (Or.inr (Or.inl (by simpa using h')))
              · exact Or.inr (Or.inr (Or.inr (by simpa using h')))
            · intro p hp
              rw [← h2] at hp
              simp [putpb] at hp
              simp [hp]
        · simp only [if_neg hS] at h
          try dsimp only [] at h
          split at h
          · exact absurd h (by simp)
          · rename_i stS hspeed
            simp only [Except.ok.injEq, Prod.mk.injEq] at h
            obtain ⟨h1, h2⟩ := h
            subst h1
            obtain ⟨t7, tsig⟩ := hidle_tail _ sym stS hspeed
            refine ⟨rfl, rfl, by simpa using t7, ?_, ?_⟩
            · rcases tsig with h' | h' | h'
              · exact Or.inl (by simpa using h')
              · exact Or.inr (Or.inr (Or.inl (by simpa using h')))
              · exact Or.inr (Or.inr (Or.inr (by simpa using h')))
            · intro p hp
              rw [← h2] at hp
              simp at hp
    · simp only [if_neg hB] at h
      try dsimp only [] at h
      split at h
      · exact absurd h (by simp)
      · rename_i stS hspeed
        simp only [Except.ok.injEq, Prod.mk.injEq] at h
        obtain ⟨h1, h2⟩ := h
        subst h1
        obtain ⟨t7, tsig⟩ := hidle_tail _ sym stS hspeed
        refine ⟨rfl, rfl, by simpa using t7, ?_, ?_⟩
        · rcases tsig with h' | h' | h'
          · exact Or.inl (by simpa using h')
          · exact Or.inr (Or.inr (Or.inl (by simpa using h')))
          · exact Or.inr (Or.inr (Or.inr (by simpa using h')))
        · intro p hp
          rw [← h2] at hp
          simp at hp

/-! ## C8 and C10: mode and state invariants of the machine -/


/-- Shape of one state-machine step: each step either deduplicates or
skips (no output, mode and state kept), arms EOP wait on SE0, confirms
an SOP (only when the active symbol table maps the pins to K), decodes
a bit or EOP tail (entering low-speed-rp only on the 16-bit preamble),
or classifies an idle gap (returning to IDLE, moving the mode only to
the configured option or an auto-detected speed, emitting only RESET
or KEEP_ALIVE). -/
theorem machine_step_shape (st : DecState) (n : ℤ) (pins : Pins)
    (st' : DecState) (puts : List Put)
    (h : machine_step st n pins = .ok (st', puts)) :
    (puts = [] ∧ st'.signalling = st.signalling ∧
      st'.state = st.state) ∨
    (puts = [] ∧ st'.signalling = st.signalling ∧
      st'.state = .WAIT_IDLE) ∨
    (st'.signalling = st.signalling ∧ st'.state = .GET_BIT ∧
      (∃ sig, st.signalling = some sig ∧ symLookup sig pins = some .K) ∧
      ∃ e, puts = [⟨e, e, Ev.SOP⟩]) ∨
    ((st.state = .GET_BIT ∨ st.state = .GET_EOP) ∧
      (st'.signalling = st.signalling ∨
       (st'.signalling = some .lowSpeedRP ∧ st.state = .GET_BIT ∧
        ∃ bs b, st.bits = some bs ∧
          bs.push b = "0000000100111100"))) ∨
    (st'.state = .IDLE ∧
      (st'.signalling = st.signalling ∨
       st'.signalling = some st.opt_signalling ∨
       st'.signalling = some .fullSpeed ∨
       st'.signalling = some .lowSpeed) ∧
      (∀ p ∈ puts, p.ev = Ev.RESET ∨ p.ev = Ev.KEEP_ALIVE)) := by
  unfold machine_step at h
  dsimp only [] at h
  split at h
  -- IDLE
  · rename_i heq
    split at h
    · simp only [Except.ok.injEq, Prod.mk.injEq] at h
      obtain ⟨h1, h2⟩ := h
      subst h1; subst h2
      exact Or.inl ⟨rfl, rfl, rfl⟩
    · split at h
      · exact absurd h (by simp)
      · rename_i sig hsig
        split at h
        · exact absurd h (by simp)
        · rename_i sym hsym
          split at h
          · simp only [Except.ok.injEq, Prod.mk.injEq] at h
            obtain ⟨h1, h2⟩ := h
            subst h1; subst h2
            exact Or.inr (Or.inl ⟨rfl, rfl, rfl⟩)
          · split at h
            · exact absurd h (by simp)
            · rename_i stW putsW hw
              simp only [Except.ok.injEq, Prod.mk.injEq] at h
              obtain ⟨h1, h2⟩ := h
              subst h1; subst h2
              rcases wfs_shape _ _ _ _ hw with ⟨hst, hpw⟩ |
                ⟨hK, -, hgb, -, hsg, -, -, -, e, hpw⟩
              · subst hst; subst hpw
                exact Or.inl ⟨rfl, rfl, rfl⟩
              · subst hpw
                refine Or.inr (Or.inr (Or.inl ⟨hsg, hgb,
                  ⟨sig, hsig, ?_⟩, e, rfl⟩))
                rw [← hK]; exact hsym
  -- GET_BIT
  · rename_i heq
    by_cases hedge : st.samplenum_edge = some n
    · simp only [if_pos hedge] at h
      try dsimp only [] at h
      split at h
      · exact absurd h (by simp)
      · rename_i tgt htgt
        split at h
        · simp only [Except.ok.injEq, Prod.mk.injEq] at h
          obtain ⟨h1, h2⟩ := h
          subst h1; subst h2
          exact Or.inl ⟨rfl, rfl, rfl⟩
        · split at h
          · exact absurd h (by simp)
          · rename_i sig hsig
            split at h
            · exact absurd h (by simp)
            · rename_i sym hsym
              split at h
              · exact absurd h (by simp)
              · rename_i stX putsX hx
                simp only [Except.ok.injEq, Prod.mk.injEq] at h
                obtain ⟨h1, h2⟩ := h
                subst h1; subst h2
                refine Or.inr (Or.inr (Or.inr (Or.inl
                  ⟨Or.inl heq, ?_⟩)))
                rcases (gbit_shape _ _ _ _ hx).2 with hd |
                  ⟨hrp, bs, b, hbs, hpb⟩
                · exact Or.inl hd
                · exact Or.inr ⟨hrp, heq, bs, b, hbs, hpb⟩
    · simp only [if_neg hedge] at h
      try dsimp only [] at h
      split at h
      · exact absurd h (by simp)
      · rename_i tgt htgt
        split at h
        · simp only [Except.ok.injEq, Prod.mk.injEq] at h
          obtain ⟨h1, h2⟩ := h
          subst h1; subst h2
          exact Or.inl ⟨rfl, rfl, rfl⟩
        · split at h
          · exact absurd h (by simp)
          · rename_i sig hsig
            split at h
            · exact absurd h (by simp)
            · rename_i sym hsym
              split at h
              · exact absurd h (by simp)
              · rename_i stX putsX hx
                simp only [Except.ok.injEq, Prod.mk.injEq] at h
                obtain ⟨h1, h2⟩ := h
                subst h1; subst h2
                refine Or.inr (Or.inr (Or.inr (Or.inl
                  ⟨Or.inl heq, ?_⟩)))
                rcases (gbit_shape _ _ _ _ hx).2 with hd |
                  ⟨hrp, bs, b, hbs, hpb⟩
                · exact Or.inl hd
                · exact Or.inr ⟨hrp, heq, bs, b, hbs, hpb⟩
  -- GET_EOP
  · rename_i heq
    by_cases hedge : st.samplenum_edge = some n
    · simp only [if_pos hedge] at h
      try dsimp only [] at h
      split at h
      · exact absurd h (by simp)
      · rename_i tgt htgt
        split at h
        · simp only [Except.ok.injEq, Prod.mk.injEq] at h
          obtain ⟨h1, h2⟩ := h
          subst h1; subst h2
          exact Or.inl ⟨rfl, rfl, rfl⟩
        · split at h
          · exact absurd h (by simp)
          · rename_i sig hsig
            split at h
            · exact absurd h (by simp)
            · rename_i sym hsym
              split at h
              · exact absurd h (by simp)
              · rename_i stX putsX hx
                simp only [Except.ok.injEq, Prod.mk.injEq] at h
                obtain ⟨h1, h2⟩ := h
                subst h1; subst h2
                rw [if_neg (show ¬st.state = St.GET_BIT by
                  simp [heq])] at hx
                refine Or.inr (Or.inr (Or.inr (Or.inl
                  ⟨Or.inr heq, Or.inl (geop_shape _ _ _ _ hx).1⟩)))
    · simp only [if_neg hedge] at h
      try dsimp only [] at h
      split at h
      · exact absurd h (by simp)
      · rename_i tgt htgt
        split at h
        · simp only [Except.ok.injEq, Prod.mk.injEq] at h
          obtain ⟨h1, h2⟩ := h
          subst h1; subst h2
          exact Or.inl ⟨rfl, rfl, rfl⟩
        · split at h
          · exact absurd h (by simp)
          · rename_i sig hsig
            split at h
            · exact absurd h (by simp)
            · rename_i sym hsym
              split at h
              · exact absurd h (by simp)
              · rename_i stX putsX hx
                simp only [Except.ok.injEq, Prod.mk.injEq] at h
                obtain ⟨h1, h2⟩ := h
                subst h1; subst h2
                rw [if_neg (show ¬st.state = St.GET_BIT by
                  simp [heq])] at hx
                refine Or.inr (Or.inr (Or.inr (Or.inl
                  ⟨Or.inr heq, Or.inl (geop_shape _ _ _ _ hx).1⟩)))
  -- WAIT_IDLE
  · rename_i heq
    split at h
    · simp only [Except.ok.injEq, Prod.mk.injEq] at h
      obtain ⟨h1, h2⟩ := h
      subst h1; subst h2
      exact Or.inl ⟨rfl, rfl, rfl⟩
    · split at h
      · exact absurd h (by simp)
      · rename_i le hle
        split at h
        · split at h
          · exact absurd h (by simp)
          · rename_i sym hsym
            split at h
            · exact absurd h (by simp)
            · rename_i stH putsH hh
              simp only [Except.ok.injEq, Prod.mk.injEq] at h
              obtain ⟨h1, h2⟩ := h
              subst h1; subst h2
              obtain ⟨hst, -, -, hsg, hev⟩ := hidle_shape _ _ _ _ hh
              exact Or.inr (Or.inr (Or.inr (Or.inr ⟨hst, hsg, hev⟩)))
        · split at h
          · exact absurd h (by simp)
          · rename_i sig hsig
            split at h
            · exact absurd h (by simp)
            · rename_i sym hsym
              split at h
              · exact absurd h (by simp)
              · rename_i stW putsW hw
                simp only [Except.ok.injEq, Prod.mk.injEq] at h
                obtain ⟨h1, h2⟩ := h
                subst h1; subst h2
                rcases wfs_shape _ _ _ _ hw with ⟨hst, hpw⟩ |
                  ⟨hK, -, hgb, -, hsg, -, -, -, e, hpw⟩
                · subst hst; subst hpw
                  exact Or.inl ⟨rfl, rfl, rfl⟩
                · subst hpw
                  refine Or.inr (Or.inr (Or.inl ⟨hsg, hgb,
                    ⟨sig, hsig, ?_⟩, e, rfl⟩))
                  rw [← hK]; exact hsym
  -- INIT
  · rename_i heq
    split at h
    · exact absurd h (by simp)
    · rename_i sym hsym
      split at h
      · exact absurd h (by simp)
      · rename_i stH putsH hh
        simp only [Except.ok.injEq, Prod.mk.injEq] at h
        obtain ⟨h1, h2⟩ := h
        subst h1; subst h2
        obtain ⟨hst, -, -, hsg, hev⟩ := hidle_shape _ _ _ _ hh
        exact Or.inr (Or.inr (Or.inr (Or.inr ⟨hst, hsg, hev⟩)))


/-- C10: the automatic symbol table has no K entry, so while the
signalling mode is automatic the decoder never enters GET BIT or GET
EOP (the invariant is preserved by every state-machine step), and an
automatic-mode step emits no SOP, BIT, STUFF_BIT or EOP event. -/
theorem c10_automatic_no_packets :
    (∀ p : Pins, symLookup .automatic p ≠ some .K) ∧
    (∀ (st : DecState) (n : ℤ) (pins : Pins) (st' : DecState)
        (puts : List Put),
      machine_step st n pins = .ok (st', puts) →
      (st.signalling = some .automatic →
        st.state ≠ .GET_BIT ∧ st.state ≠ .GET_EOP) →
      ((st'.signalling = some .automatic →
          st'.state ≠ .GET_BIT ∧ st'.state ≠ .GET_EOP) ∧
       (st.signalling = some .automatic → ∀ p ∈ puts,
          p.ev ≠ Ev.SOP ∧ (∀ b, p.ev ≠ Ev.BIT b) ∧
          p.ev ≠ Ev.STUFF_BIT ∧ p.ev ≠ Ev.EOP))) := by
  have noK : ∀ p : Pins, symLookup .automatic p ≠ some .K := by decide
  refine ⟨noK, ?_⟩
  intro st n pins st' puts h hinv
  rcases machine_step_shape st n pins st' puts h with
    ⟨hp, hsg, hst⟩ | ⟨hp, hsg, hst⟩ |
    ⟨hsg, hst, ⟨sig, hsig, hK⟩, e, hp⟩ |
    ⟨hstate, hd⟩ | ⟨hst, hsg, hev⟩
  · subst hp
    refine ⟨fun hA => ?_, fun _ p hp => absurd hp (by simp)⟩
    rw [hst]
    rw [hsg] at hA
    exact hinv hA
  · subst hp
    refine ⟨fun hA => ?_, fun _ p hp => absurd hp (by simp)⟩
    rw [hst]
    exact ⟨by decide, by decide⟩
  · have hsa : sig ≠ Mode.automatic := fun hc => noK pins (hc ▸ hK)
    refine ⟨fun hA => ?_, fun hA => ?_⟩
    · rw [hsg, hsig] at hA
      exact absurd (Option.some.inj hA) hsa
    · rw [hsig] at hA
      exact absurd (Option.some.inj hA) hsa
  · have hA' : st.signalling ≠ some Mode.automatic := by
      intro hA
      rcases hstate with hs | hs
      · exact (hinv hA).1 hs
      · exact (hinv hA).2 hs
    refine ⟨fun hA => ?_, fun hA => absurd hA hA'⟩
    rcases hd with hd | ⟨hd, -, -⟩
    · rw [hd] at hA
      exact absurd hA hA'
    · rw [hd] at hA
      exact absurd (Option.some.inj hA) (by decide)
  · refine ⟨fun _ => ?_, fun _ p hp => ?_⟩
    · rw [hst]
      exact ⟨by decide, by decide⟩
    · rcases hev p hp with he | he <;> rw [he] <;>
        exact ⟨by simp, fun b => by simp, by simp, by simp⟩

/-- C8, amended: low-speed-rp is entered by a state-machine step only
from GET BIT when pushing one more bit onto the collected packet bits
yields the 16-bit preamble pattern; the mode context is NOT restricted
to automatic/low-speed as the claim states (the counterexample enters
it from full-speed). On the next Reset classification (gap above 2.5
microseconds) with no overriding FS_J/LS_J idle symbol, `handle_idle`
reverts the signalling mode to the externally configured option. -/
theorem c8_mode_transitions :
    (∀ (st : DecState) (n : ℤ) (pins : Pins) (st' : DecState)
        (puts : List Put),
      machine_step st n pins = .ok (st', puts) →
      st.opt_signalling ≠ .lowSpeedRP →
      st.signalling ≠ some .lowSpeedRP →
      st'.signalling = some .lowSpeedRP →
      st.state = .GET_BIT ∧
      ∃ bs b, st.bits = some bs ∧
        bs.push b = "0000000100111100") ∧
    (∀ (st : DecState) (sym : Sym) (st' : DecState) (puts : List Put)
        (r : ℚ) (le : ℤ),
      st.samplerate = some r → r ≠ 0 →
      st.samplenum_lastedge = some le →
      handle_idle st sym = .ok (st', puts) →
      ((st.samplenum - le : ℤ) : ℚ) / r > 25 / 10000000 →
      sym ≠ .FSJ → sym ≠ .LSJ →
      st'.signalling = some st.opt_signalling) := by
  constructor
  · intro st n pins st' puts h hopt hsgn hrp
    rcases machine_step_shape st n pins st' puts h with
      ⟨-, hsg, -⟩ | ⟨-, hsg, -⟩ | ⟨hsg, -, -⟩ | ⟨-, hd⟩ | ⟨-, hsg, -⟩
    · rw [hsg] at hrp
      exact absurd hrp hsgn
    · rw [hsg] at hrp
      exact absurd hrp hsgn
    · rw [hsg] at hrp
      exact absurd hrp hsgn
    · rcases hd with hd | ⟨-, hst, hb⟩
      · rw [hd] at hrp
        exact absurd hrp hsgn
      · exact ⟨hst, hb⟩
    · rcases hsg with hsg | hsg | hsg | hsg
      · rw [hsg] at hrp
        exact absurd hrp hsgn
      · rw [hsg] at hrp
        exact absurd (Option.some.inj hrp) hopt
      · rw [hsg] at hrp
        exact absurd (Option.some.inj hrp) (by decide)
      · rw [hsg] at hrp
        exact absurd (Option.some.inj hrp) (by decide)
  · intro st sym st' puts r le hr hr0 hle h hgap hF hL
    unfold handle_idle at h
    dsimp only [] at h
    split at h
    case h_2 => exact absurd h (by simp)
    rename_i r2 le2 hr2 hle2
    rw [hr] at hr2
    rw [hle] at hle2
    injection hr2 with hre
    injection hle2 with hlee
    subst hre
    subst hlee
    split at h
    · exact absurd h (by simp)
    simp only [Except.ok.injEq, Prod.mk.injEq] at h
    obtain ⟨h1, -⟩ := h
    subst h1
    rfl


/-- D+ high, D- low (a full-speed J). -/
def Jp : Pins := (true, false)

/-- D+ low, D- high (a full-speed K). -/
def Kp : Pins := (false, true)

/-- Both lines low (SE0). -/
def Zp : Pins := (false, false)

/-- Pin samples for the C8 counterexample: full-speed idle, an SOP
edge, the NRZI encoding of the preamble bit-string 0000000100111100
(one sample per bit), then SE0 and J. -/
def c8syms : List Pins :=
  [Jp, Jp, Jp, Kp, Kp, Jp, Kp, Jp, Kp, Jp, Kp, Kp, Jp, Kp, Kp, Kp,
   Kp, Kp, Jp, Kp, Zp, Zp, Jp]

/-- The C8 counterexample input stream, one sample per index. -/
def c8data : List (ℤ × Pins) :=
  (List.range 23).map (fun (i : ℕ) => ((i : ℤ), c8syms.getD i (true, false)))

/-- The decoder state after `metadata` fixes a 12 MHz samplerate with
the full-speed option. -/
def c8st0 : DecState :=
  { initState .fullSpeed with samplerate := some 12000000,
                              signalling := some .fullSpeed,
                              bitrate := some 12000000,
                              bitwidth := some 1 }

/-- C8, counterexample: starting from the externally configured
full-speed option (never automatic or low-speed), a complete `decode`
run over the preamble stream ends with the signalling mode switched to
low-speed-rp: the preamble switch is not restricted to automatic or
low-speed contexts. -/
theorem c8_counterexample :
    (initState Mode.fullSpeed).opt_signalling = .fullSpeed ∧
    metadata (initState .fullSpeed) 12000000 = .ok c8st0 ∧
    (decode c8st0 c8data).map (Except.map (fun r => r.2.signalling)) =
      .ok (.ok (some Mode.lowSpeedRP)) := by
  refine ⟨rfl, by decide!, by decide!⟩

/-- A GET BIT state one bit short of the full 16-bit preamble, for the
C8 witness. -/
def c8gst : DecState :=
  { initState .fullSpeed with
      samplerate := some 12000000, signalling := some .fullSpeed,
      bitrate := some 12000000, bitwidth := some 1,
      samplepos := some 10, samplenum_target := some 10,
      samplenum_edge := some 9,
      oldsym := .J, bits := some "000000010011110", state := .GET_BIT,
      consecutive_ones := 0, oldpins := some (true, false) }

/-- The state produced by stepping `c8gst` (computed). -/
def c8gres : DecState where
  opt_signalling := .fullSpeed
  samplerate := some 12000000
  oldsym := .J
  ss_block := none
  samplenum := 10
  bitrate := some 1500000
  bitwidth := some 8
  samplepos := some 11
  samplenum_target := some 11
  samplenum_edge := some 10
  samplenum_lastedge := some 9
  oldpins := some (false, true)
  edgepins := none
  consecutive_ones := 0
  bits := some "0000000100111100"
  signalling := some .lowSpeedRP
  state := .IDLE
  lookahead_buffer := none

/-- The events produced by stepping `c8gst` (computed). -/
def c8gputs : List Put :=
  [⟨some 9, some 10, Ev.BIT '0'⟩, ⟨some 9, some 10, Ev.SYM .K⟩,
   ⟨some 10, some 10, Ev.EOP⟩]

/-- A WAIT IDLE state in low-speed-rp mode with a 10 microsecond gap,
for the Reset half of the C8 witness. -/
def c8wst : DecState :=
  { initState .fullSpeed with samplerate := some 1000000,
                              samplenum_lastedge := some 0,
                              samplenum := 10,
                              signalling := some .lowSpeedRP,
                              state := .WAIT_IDLE }

/-- The state produced by `handle_idle` on `c8wst` (computed). -/
def c8wres : DecState where
  opt_signalling := .fullSpeed
  samplerate := some 1000000
  oldsym := .J
  ss_block := none
  samplenum := 10
  bitrate := none
  bitwidth := none
  samplepos := none
  samplenum_target := none
  samplenum_edge := some 10
  samplenum_lastedge := some 0
  oldpins := none
  edgepins := none
  consecutive_ones := 0
  bits := none
  signalling := some .fullSpeed
  state := .IDLE
  lookahead_buffer := none

/-- C8, witness: the amended theorem applied at a concrete preamble
completion step (entering low-speed-rp) and at a concrete Reset
classification (reverting to the configured option). -/
theorem c8_witness :
    (machine_step c8gst 10 (false, true) = .ok (c8gres, c8gputs) ∧
     c8gst.opt_signalling ≠ Mode.lowSpeedRP ∧
     c8gst.signalling ≠ some Mode.lowSpeedRP ∧
     c8gres.signalling = some Mode.lowSpeedRP ∧
     c8gst.state = .GET_BIT ∧
     ∃ bs b, c8gst.bits = some bs ∧
       bs.push b = "0000000100111100") ∧
    (handle_idle c8wst Sym.J = .ok (c8wres, [⟨some 0, some 10, Ev.RESET⟩]) ∧
     ((c8wst.samplenum - 0 : ℤ) : ℚ) / 1000000 > 25 / 10000000 ∧
     c8wres.signalling = some c8wst.opt_signalling) := by
  have h1 : machine_step c8gst 10 (false, true) = .ok (c8gres, c8gputs) := by
    decide!
  have h2 : handle_idle c8wst Sym.J =
      .ok (c8wres, [⟨some 0, some 10, Ev.RESET⟩]) := by decide!
  have hgap : ((c8wst.samplenum - 0 : ℤ) : ℚ) / 1000000 > 25 / 10000000 := by
    decide!
  obtain ⟨hs, hb⟩ := c8_mode_transitions.1 c8gst 10 (false, true) c8gres
    c8gputs h1 (by decide) (by decide) rfl
  refine ⟨⟨h1, by decide, by decide, rfl, hs, hb⟩, h2, hgap, ?_⟩
  exact c8_mode_transitions.2 c8wst Sym.J c8wres [⟨some 0, some 10, Ev.RESET⟩]
    1000000 0 rfl (by norm_num) rfl h2 hgap (by decide) (by decide)

/-- An INIT state with automatic signalling mode, for the C10
witness. -/
def c10st : DecState :=
  { initState .automatic with signalling := some .automatic,
                              samplerate := some 10000000,
                              samplenum_lastedge := some 0 }

/-- The state produced by stepping `c10st` (computed). -/
def c10res : DecState where
  opt_signalling := .automatic
  samplerate := some 10000000
  oldsym := .J
  ss_block := none
  samplenum := 0
  bitrate := some 12000000
  bitwidth := some (5 / 6 : ℚ)
  samplepos := none
  samplenum_target := none
  samplenum_edge := some 0
  samplenum_lastedge := some 0
  oldpins := some (true, false)
  edgepins := none
  consecutive_ones := 0
  bits := none
  signalling := some .fullSpeed
  state := .IDLE
  lookahead_buffer := none

/-- C10, witness: the invariant theorem applied at a concrete
automatic-mode step (an FS_J idle symbol locking full speed), with the
non-packet-state invariant and the no-packet-events conclusion
evaluated. -/
theorem c10_witness :
    machine_step c10st 0 (true, false) = .ok (c10res, []) ∧
    c10st.signalling = some Mode.automatic ∧ c10st.state = St.INIT ∧
    (c10res.signalling = some Mode.automatic →
      c10res.state ≠ St.GET_BIT ∧ c10res.state ≠ St.GET_EOP) ∧
    (∀ p ∈ ([] : List Put), p.ev ≠ Ev.SOP ∧ (∀ b, p.ev ≠ Ev.BIT b) ∧
      p.ev ≠ Ev.STUFF_BIT ∧ p.ev ≠ Ev.EOP) := by
  have h : machine_step c10st 0 (true, false) = .ok (c10res, []) := by decide!
  have hres := c10_automatic_no_packets.2 c10st 0 (true, false) c10res [] h
    (by decide)
  exact ⟨h, by decide, by decide, hres.1, hres.2 (by decide)⟩

end UsbSig
